import Mathlib

/-!
Shallow embedding of the yamos6502 MOS 6502 behavioral emulator.

Machine bytes (`u8`) and machine words (`u16`) are embedded as `Nat`
with explicit reductions modulo 2^8 / 2^16 exactly where the Rust
source performs wrapping arithmetic or relies on the machine-integer
type.  Fallible operations return `Except`; the CPU state is threaded
explicitly, so partially-performed mutations before an error are kept,
as they are in the Rust source (`&mut self` methods returning early on
`?`).

Sources embedded:
  * `src/bcd.rs`                  (`u8_to_bcd`, `bcd_to_u8`)
  * `src/lib/src/regfile.rs`      (`Status`, `Register`, `RegisterFile`)
  * `src/lib/src/insns.rs`        (`AddressMode`, `Insn`, `INSN_BY_GROUP`,
                                   `decode_insn`, `encode_insn`)
  * `src/yamos6502.rs`            (the CPU engine: effective addresses,
                                   instruction semantics, stack, `step`, `run`)
-/

namespace Yamos6502

/-- Reduction of a `Nat` to the 8-bit range, the `u8` type annotation. -/
def wrap8 (n : Nat) : Nat := n % 256

/-- Reduction of a `Nat` to the 16-bit range, the `u16` type annotation. -/
def wrap16 (n : Nat) : Nat := n % 65536

/-- `src/bcd.rs` — `u8_to_bcd`. -/
def u8_to_bcd (u : Nat) : Nat :=
  if u < 100 then ((u / 10) <<< 4) ||| (u % 10) else 0x00

/-- `src/bcd.rs` — `bcd_to_u8`. -/
def bcd_to_u8 (bcd : Nat) : Nat :=
  (bcd >>> 4) * 10 + (bcd &&& 0x0f)

/-- `regfile.rs` — SR flags (bit 7 to bit 0). -/
inductive Status where
  | Negative
  | Overflow
  | AlwaysSet
  | Break
  | Decimal
  | InterruptDisable
  | Zero
  | Carry
deriving DecidableEq

/-- The bit index of a status flag (the enum discriminant in the source). -/
def Status.bit : Status → Nat
  | .Negative => 7
  | .Overflow => 6
  | .AlwaysSet => 5
  | .Break => 4
  | .Decimal => 3
  | .InterruptDisable => 2
  | .Zero => 1
  | .Carry => 0

/-- `regfile.rs` — `Status::mask`: `1 << (*self as u8)`. -/
def Status.mask (s : Status) : Nat := 1 <<< s.bit

/-- `regfile.rs` — `Register`. -/
inductive Register where
  | A
  | X
  | Y
  | P
  | S
deriving DecidableEq

/-- `regfile.rs` — `RegisterFile`: 16-bit `pc` and the five 8-bit
registers `r : [u8; 5]`, here as named fields indexed by `Register`. -/
structure RegisterFile where
  pc : Nat
  a : Nat
  x : Nat
  y : Nat
  p : Nat
  s : Nat
deriving DecidableEq

/-- `regfile.rs` — `RegisterFile::reg`. -/
def RegisterFile.reg (rf : RegisterFile) : Register → Nat
  | .A => rf.a
  | .X => rf.x
  | .Y => rf.y
  | .P => rf.p
  | .S => rf.s

/-- `regfile.rs` — the `reg_mut` assignment `*self.reg_mut(reg) = v`. -/
def RegisterFile.setReg (rf : RegisterFile) : Register → Nat → RegisterFile
  | .A, v => { rf with a := v }
  | .X, v => { rf with x := v }
  | .Y, v => { rf with y := v }
  | .P, v => { rf with p := v }
  | .S, v => { rf with s := v }

/-- `regfile.rs` — `RegisterFile::new`: arbitrary inconsistent values. -/
def RegisterFile.new : RegisterFile :=
  { pc := 0xFF55, a := 0xAA, x := 0xCC, y := 0xD2, p := 0, s := 0x01 }

/-- `regfile.rs` — `RegisterFile::set_pc`. -/
def RegisterFile.set_pc (rf : RegisterFile) (pc : Nat) : RegisterFile :=
  { rf with pc := pc }

/-- `regfile.rs` — `RegisterFile::adjust_pc_by`:
`self.pc = self.pc.wrapping_add(offset as i16 as u16)` with a signed
8-bit `offset`, i.e. addition of the sign-extended offset modulo 2^16. -/
def RegisterFile.adjust_pc_by (rf : RegisterFile) (offset : Int) : RegisterFile :=
  { rf with pc := (((rf.pc : Int) + offset).emod 65536).toNat }

/-- `regfile.rs` — `RegisterFile::flag_set`. -/
def RegisterFile.flag_set (rf : RegisterFile) (flag : Status) : Bool :=
  rf.p &&& flag.mask != 0

/-- `regfile.rs` — `RegisterFile::set_flag_from_cond`:
`*p = (*p & !flag.mask()) | (cond as u8) << (flag as u8)`
(`!mask` on `u8` is `mask ^^^ 255`). -/
def RegisterFile.set_flag_from_cond (rf : RegisterFile) (flag : Status) (cond : Bool) :
    RegisterFile :=
  { rf with p := (rf.p &&& (flag.mask ^^^ 255)) ||| (if cond then flag.mask else 0) }

/-- `regfile.rs` — `RegisterFile::set_flag`. -/
def RegisterFile.set_flag (rf : RegisterFile) (flag : Status) : RegisterFile :=
  rf.set_flag_from_cond flag true

/-- `regfile.rs` — `RegisterFile::clear_flag`. -/
def RegisterFile.clear_flag (rf : RegisterFile) (flag : Status) : RegisterFile :=
  rf.set_flag_from_cond flag false

/-- `regfile.rs` — `RegisterFile::reset`: `P = 0`, then set
`InterruptDisable` and `AlwaysSet`.  A, X, Y, S and PC are untouched. -/
def RegisterFile.reset (rf : RegisterFile) : RegisterFile :=
  ((rf.setReg .P 0).set_flag .InterruptDisable).set_flag .AlwaysSet

/-- `insns.rs` — `AddressMode`. -/
inductive AddressMode where
  | Immediate
  | Relative
  | Xindirect
  | Indirect
  | IndirectY
  | Absolute
  | AbsoluteX
  | AbsoluteY
  | Zeropage
  | ZeropageX
  | ZeropageY
deriving DecidableEq

set_option maxHeartbeats 1600000

/-- `insns.rs` — `Insn`: tagged instruction representation, one variant
per mnemonic; accumulator-operand shifts are separate variants; `JAM`
is the single invalid-opcode sentinel. -/
inductive Insn where
  | ADC (m : AddressMode)
  | AND (m : AddressMode)
  | ASLA
  | ASL (m : AddressMode)
  | BCC (m : AddressMode)
  | BCS (m : AddressMode)
  | BEQ (m : AddressMode)
  | BIT (m : AddressMode)
  | BMI (m : AddressMode)
  | BNE (m : AddressMode)
  | BPL (m : AddressMode)
  | BRK
  | BVC (m : AddressMode)
  | BVS (m : AddressMode)
  | CLC
  | CLD
  | CLI
  | CLV
  | CMP (m : AddressMode)
  | CPX (m : AddressMode)
  | CPY (m : AddressMode)
  | DEC (m : AddressMode)
  | DEX
  | DEY
  | EOR (m : AddressMode)
  | INC (m : AddressMode)
  | INX
  | INY
  | JAM
  | JMP (m : AddressMode)
  | JSR (m : AddressMode)
  | LDA (m : AddressMode)
  | LDX (m : AddressMode)
  | LDY (m : AddressMode)
  | LSRA
  | LSR (m : AddressMode)
  | NOP
  | ORA (m : AddressMode)
  | PHA
  | PHP
  | PLA
  | PLP
  | ROLA
  | ROL (m : AddressMode)
  | RORA
  | ROR (m : AddressMode)
  | RTI
  | RTS
  | SBC (m : AddressMode)
  | SEC
  | SED
  | SEI
  | STA (m : AddressMode)
  | STX (m : AddressMode)
  | STY (m : AddressMode)
  | TAX
  | TAY
  | TSX
  | TXA
  | TXS
  | TYA

/-- Constructor discriminant, used to decide equality of `Insn` values. -/
def Insn.ctorIdx : Insn → Nat
  | .ADC _ => 0
  | .AND _ => 1
  | .ASLA => 2
  | .ASL _ => 3
  | .BCC _ => 4
  | .BCS _ => 5
  | .BEQ _ => 6
  | .BIT _ => 7
  | .BMI _ => 8
  | .BNE _ => 9
  | .BPL _ => 10
  | .BRK => 11
  | .BVC _ => 12
  | .BVS _ => 13
  | .CLC => 14
  | .CLD => 15
  | .CLI => 16
  | .CLV => 17
  | .CMP _ => 18
  | .CPX _ => 19
  | .CPY _ => 20
  | .DEC _ => 21
  | .DEX => 22
  | .DEY => 23
  | .EOR _ => 24
  | .INC _ => 25
  | .INX => 26
  | .INY => 27
  | .JAM => 28
  | .JMP _ => 29
  | .JSR _ => 30
  | .LDA _ => 31
  | .LDX _ => 32
  | .LDY _ => 33
  | .LSRA => 34
  | .LSR _ => 35
  | .NOP => 36
  | .ORA _ => 37
  | .PHA => 38
  | .PHP => 39
  | .PLA => 40
  | .PLP => 41
  | .ROLA => 42
  | .ROL _ => 43
  | .RORA => 44
  | .ROR _ => 45
  | .RTI => 46
  | .RTS => 47
  | .SBC _ => 48
  | .SEC => 49
  | .SED => 50
  | .SEI => 51
  | .STA _ => 52
  | .STX _ => 53
  | .STY _ => 54
  | .TAX => 55
  | .TAY => 56
  | .TSX => 57
  | .TXA => 58
  | .TXS => 59
  | .TYA => 60

/-- Addressing-mode payload, if any. -/
def Insn.modeOf : Insn → Option AddressMode
  | .ADC m => some m
  | .AND m => some m
  | .ASL m => some m
  | .BCC m => some m
  | .BCS m => some m
  | .BEQ m => some m
  | .BIT m => some m
  | .BMI m => some m
  | .BNE m => some m
  | .BPL m => some m
  | .BVC m => some m
  | .BVS m => some m
  | .CMP m => some m
  | .CPX m => some m
  | .CPY m => some m
  | .DEC m => some m
  | .EOR m => some m
  | .INC m => some m
  | .JMP m => some m
  | .JSR m => some m
  | .LDA m => some m
  | .LDX m => some m
  | .LDY m => some m
  | .LSR m => some m
  | .ORA m => some m
  | .ROL m => some m
  | .ROR m => some m
  | .SBC m => some m
  | .STA m => some m
  | .STX m => some m
  | .STY m => some m
  | _ => none

instance : DecidableEq Insn := fun a b =>
  decidable_of_iff (a.ctorIdx = b.ctorIdx ∧ a.modeOf = b.modeOf) (by
    constructor
    · rintro ⟨h1, h2⟩
      cases a <;> cases b <;>
        first
          | rfl
          | (injection h2 with h3; exact congrArg _ h3)
          | exact absurd h1 (Nat.ne_of_beq_eq_false rfl)
    · rintro rfl
      exact ⟨rfl, rfl⟩)

/-- `insns.rs` — `Insn::is_valid`. -/
def Insn.is_valid (i : Insn) : Bool := i != Insn.JAM

/-- `insns.rs` — the constant table `INSN_BY_GROUP : [[[Insn; 8]; 8]; 4]`,
indexed `[group][hi_octal][lo_octal]`. -/
def INSN_BY_GROUP : List (List (List Insn)) := [
  -- Group 0b00
  [
    [.BRK, .JAM, .PHP, .JAM, .BPL .Relative, .JAM, .CLC, .JAM],
    [.JSR .Absolute, .BIT .Zeropage, .PLP, .BIT .Absolute,
     .BMI .Relative, .JAM, .SEC, .JAM],
    [.RTI, .JAM, .PHA, .JMP .Absolute, .BVC .Relative, .JAM, .CLI, .JAM],
    [.RTS, .JAM, .PLA, .JMP .Indirect, .BVS .Relative, .JAM, .SEI, .JAM],
    [.JAM, .STY .Zeropage, .DEY, .STY .Absolute,
     .BCC .Relative, .STY .ZeropageX, .TYA, .JAM],
    [.LDY .Immediate, .LDY .Zeropage, .TAY, .LDY .Absolute,
     .BCS .Relative, .LDY .ZeropageX, .CLV, .LDY .AbsoluteX],
    [.CPY .Immediate, .CPY .Zeropage, .INY, .CPY .Absolute,
     .BNE .Relative, .JAM, .CLD, .JAM],
    [.CPX .Immediate, .CPX .Zeropage, .INX, .CPX .Absolute,
     .BEQ .Relative, .JAM, .SED, .JAM]
  ],
  -- Group 0b01
  [
    [.ORA .Xindirect, .ORA .Zeropage, .ORA .Immediate, .ORA .Absolute,
     .ORA .IndirectY, .ORA .ZeropageX, .ORA .AbsoluteY, .ORA .AbsoluteX],
    [.AND .Xindirect, .AND .Zeropage, .AND .Immediate, .AND .Absolute,
     .AND .IndirectY, .AND .ZeropageX, .AND .AbsoluteY, .AND .AbsoluteX],
    [.EOR .Xindirect, .EOR .Zeropage, .EOR .Immediate, .EOR .Absolute,
     .EOR .IndirectY, .EOR .ZeropageX, .EOR .AbsoluteY, .EOR .AbsoluteX],
    [.ADC .Xindirect, .ADC .Zeropage, .ADC .Immediate, .ADC .Absolute,
     .ADC .IndirectY, .ADC .ZeropageX, .ADC .AbsoluteY, .ADC .AbsoluteX],
    [.STA .Xindirect, .STA .Zeropage, .JAM, .STA .Absolute,
     .STA .IndirectY, .STA .ZeropageX, .STA .AbsoluteY, .STA .AbsoluteX],
    [.LDA .Xindirect, .LDA .Zeropage, .LDA .Immediate, .LDA .Absolute,
     .LDA .IndirectY, .LDA .ZeropageX, .LDA .AbsoluteY, .LDA .AbsoluteX],
    [.CMP .Xindirect, .CMP .Zeropage, .CMP .Immediate, .CMP .Absolute,
     .CMP .IndirectY, .CMP .ZeropageX, .CMP .AbsoluteY, .CMP .AbsoluteX],
    [.SBC .Xindirect, .SBC .Zeropage, .SBC .Immediate, .SBC .Absolute,
     .SBC .IndirectY, .SBC .ZeropageX, .SBC .AbsoluteY, .SBC .AbsoluteX]
  ],
  -- Group 0b10
  [
    [.JAM, .ASL .Zeropage, .ASLA, .ASL .Absolute,
     .JAM, .ASL .ZeropageX, .JAM, .ASL .AbsoluteX],
    [.JAM, .ROL .Zeropage, .ROLA, .ROL .Absolute,
     .JAM, .ROL .ZeropageX, .JAM, .ROL .AbsoluteX],
    [.JAM, .LSR .Zeropage, .LSRA, .LSR .Absolute,
     .JAM, .LSR .ZeropageX, .JAM, .LSR .AbsoluteX],
    [.JAM, .ROR .Zeropage, .RORA, .ROR .Absolute,
     .JAM, .ROR .ZeropageX, .JAM, .ROR .AbsoluteX],
    [.JAM, .STX .Zeropage, .TXA, .STX .Absolute,
     .JAM, .STX .ZeropageY, .TXS, .JAM],
    [.LDX .Immediate, .LDX .Zeropage, .TAX, .LDX .Absolute,
     .JAM, .LDX .ZeropageY, .TSX, .LDX .AbsoluteY],
    [.JAM, .DEC .Zeropage, .DEX, .DEC .Absolute,
     .JAM, .DEC .ZeropageX, .JAM, .DEC .AbsoluteX],
    [.JAM, .INC .Zeropage, .NOP, .INC .Absolute,
     .JAM, .INC .ZeropageX, .JAM, .INC .AbsoluteX]
  ],
  -- Group 0b11: no valid instructions
  [
    [.JAM, .JAM, .JAM, .JAM, .JAM, .JAM, .JAM, .JAM],
    [.JAM, .JAM, .JAM, .JAM, .JAM, .JAM, .JAM, .JAM],
    [.JAM, .JAM, .JAM, .JAM, .JAM, .JAM, .JAM, .JAM],
    [.JAM, .JAM, .JAM, .JAM, .JAM, .JAM, .JAM, .JAM],
    [.JAM, .JAM, .JAM, .JAM, .JAM, .JAM, .JAM, .JAM],
    [.JAM, .JAM, .JAM, .JAM, .JAM, .JAM, .JAM, .JAM],
    [.JAM, .JAM, .JAM, .JAM, .JAM, .JAM, .JAM, .JAM],
    [.JAM, .JAM, .JAM, .JAM, .JAM, .JAM, .JAM, .JAM]
  ]
]

/-- `insns.rs` — `decode_insn`: split the opcode into group (low two
bits), high octal and low octal, and look the instruction up in the
three-dimensional table. -/
def decode_insn (opcode : Nat) : Insn :=
  let group := opcode &&& 0b11
  let two_octals := opcode >>> 2
  let lo_octal := two_octals &&& 0b111
  let hi_octal := two_octals >>> 3
  (((INSN_BY_GROUP.getD group []).getD hi_octal []).getD lo_octal Insn.JAM)

/-- `insns.rs` — `encode_insn`: the reverse mapping, `0xff` for any
instruction value that has no opcode. -/
def encode_insn (insn : Insn) : Nat :=
  match insn with
  | .ADC .Absolute => 0x6d
  | .ADC .AbsoluteX => 0x7d
  | .ADC .AbsoluteY => 0x79
  | .ADC .Immediate => 0x69
  | .ADC .IndirectY => 0x71
  | .ADC .Xindirect => 0x61
  | .ADC .Zeropage => 0x65
  | .ADC .ZeropageX => 0x75
  | .AND .Absolute => 0x2d
  | .AND .AbsoluteX => 0x3d
  | .AND .AbsoluteY => 0x39
  | .AND .Immediate => 0x29
  | .AND .IndirectY => 0x31
  | .AND .Xindirect => 0x21
  | .AND .Zeropage => 0x25
  | .AND .ZeropageX => 0x35
  | .ASL .Absolute => 0x0e
  | .ASL .AbsoluteX => 0x1e
  | .ASLA => 0x0a
  | .ASL .Zeropage => 0x06
  | .ASL .ZeropageX => 0x16
  | .BCC .Relative => 0x90
  | .BCS .Relative => 0xb0
  | .BEQ .Relative => 0xf0
  | .BIT .Absolute => 0x2c
  | .BIT .Zeropage => 0x24
  | .BMI .Relative => 0x30
  | .BNE .Relative => 0xd0
  | .BPL .Relative => 0x10
  | .BRK => 0x00
  | .BVC .Relative => 0x50
  | .BVS .Relative => 0x70
  | .CLC => 0x18
  | .CLD => 0xd8
  | .CLI => 0x58
  | .CLV => 0xb8
  | .CMP .Absolute => 0xcd
  | .CMP .AbsoluteX => 0xdd
  | .CMP .AbsoluteY => 0xd9
  | .CMP .Immediate => 0xc9
  | .CMP .IndirectY => 0xd1
  | .CMP .Xindirect => 0xc1
  | .CMP .Zeropage => 0xc5
  | .CMP .ZeropageX => 0xd5
  | .CPX .Absolute => 0xec
  | .CPX .Immediate => 0xe0
  | .CPX .Zeropage => 0xe4
  | .CPY .Absolute => 0xcc
  | .CPY .Immediate => 0xc0
  | .CPY .Zeropage => 0xc4
  | .DEC .Absolute => 0xce
  | .DEC .AbsoluteX => 0xde
  | .DEC .Zeropage => 0xc6
  | .DEC .ZeropageX => 0xd6
  | .DEX => 0xca
  | .DEY => 0x88
  | .EOR .Absolute => 0x4d
  | .EOR .AbsoluteX => 0x5d
  | .EOR .AbsoluteY => 0x59
  | .EOR .Immediate => 0x49
  | .EOR .IndirectY => 0x51
  | .EOR .Xindirect => 0x41
  | .EOR .Zeropage => 0x45
  | .EOR .ZeropageX => 0x55
  | .INC .Absolute => 0xee
  | .INC .AbsoluteX => 0xfe
  | .INC .Zeropage => 0xe6
  | .INC .ZeropageX => 0xf6
  | .INX => 0xe8
  | .INY => 0xc8
  | .JMP .Absolute => 0x4c
  | .JMP .Indirect => 0x6c
  | .JSR .Absolute => 0x20
  | .LDA .Absolute => 0xad
  | .LDA .AbsoluteX => 0xbd
  | .LDA .AbsoluteY => 0xb9
  | .LDA .Immediate => 0xa9
  | .LDA .IndirectY => 0xb1
  | .LDA .Xindirect => 0xa1
  | .LDA .Zeropage => 0xa5
  | .LDA .ZeropageX => 0xb5
  | .LDX .Absolute => 0xae
  | .LDX .AbsoluteY => 0xbe
  | .LDX .Immediate => 0xa2
  | .LDX .Zeropage => 0xa6
  | .LDX .ZeropageY => 0xb6
  | .LDY .Absolute => 0xac
  | .LDY .AbsoluteX => 0xbc
  | .LDY .Immediate => 0xa0
  | .LDY .Zeropage => 0xa4
  | .LDY .ZeropageX => 0xb4
  | .LSR .Absolute => 0x4e
  | .LSR .AbsoluteX => 0x5e
  | .LSRA => 0x4a
  | .LSR .Zeropage => 0x46
  | .LSR .ZeropageX => 0x56
  | .NOP => 0xea
  | .ORA .Absolute => 0x0d
  | .ORA .AbsoluteX => 0x1d
  | .ORA .AbsoluteY => 0x19
  | .ORA .Immediate => 0x09
  | .ORA .IndirectY => 0x11
  | .ORA .Xindirect => 0x01
  | .ORA .Zeropage => 0x05
  | .ORA .ZeropageX => 0x15
  | .PHA => 0x48
  | .PHP => 0x08
  | .PLA => 0x68
  | .PLP => 0x28
  | .ROL .Absolute => 0x2e
  | .ROL .AbsoluteX => 0x3e
  | .ROLA => 0x2a
  | .ROL .Zeropage => 0x26
  | .ROL .ZeropageX => 0x36
  | .ROR .Absolute => 0x6e
  | .ROR .AbsoluteX => 0x7e
  | .RORA => 0x6a
  | .ROR .Zeropage => 0x66
  | .ROR .ZeropageX => 0x76
  | .RTI => 0x40
  | .RTS => 0x60
  | .SBC .Absolute => 0xed
  | .SBC .AbsoluteX => 0xfd
  | .SBC .AbsoluteY => 0xf9
  | .SBC .Immediate => 0xe9
  | .SBC .IndirectY => 0xf1
  | .SBC .Xindirect => 0xe1
  | .SBC .Zeropage => 0xe5
  | .SBC .ZeropageX => 0xf5
  | .SEC => 0x38
  | .SED => 0xf8
  | .SEI => 0x78
  | .STA .Absolute => 0x8d
  | .STA .AbsoluteX => 0x9d
  | .STA .AbsoluteY => 0x99
  | .STA .IndirectY => 0x91
  | .STA .Xindirect => 0x81
  | .STA .Zeropage => 0x85
  | .STA .ZeropageX => 0x95
  | .STX .Absolute => 0x8e
  | .STX .Zeropage => 0x86
  | .STX .ZeropageY => 0x96
  | .STY .Absolute => 0x8c
  | .STY .Zeropage => 0x84
  | .STY .ZeropageX => 0x94
  | .TAX => 0xaa
  | .TAY => 0xa8
  | .TSX => 0xba
  | .TXA => 0x8a
  | .TXS => 0x9a
  | .TYA => 0x98
  | _ => 0xff

/-- Decidable equality for `Except` results, for evaluating the
theorems on concrete machines. -/
instance instDecEqExcept {ε α : Type} [DecidableEq ε] [DecidableEq α] :
    DecidableEq (Except ε α)
  | .ok a, .ok b =>
    if h : a = b then .isTrue (by rw [h]) else .isFalse (by simp [h])
  | .ok _, .error _ => .isFalse (by simp)
  | .error _, .ok _ => .isFalse (by simp)
  | .error a, .error b =>
    if h : a = b then .isTrue (by rw [h]) else .isFalse (by simp [h])

/-- `yamos6502.rs` — `MemoryError`. -/
inductive MemoryError where
  | BadAddress (addr : Nat)
  | ReadOnlyAddress (addr : Nat)
deriving DecidableEq

/-- `yamos6502.rs` — `RunError`. -/
inductive RunError where
  | InvalidInstruction (opcode : Nat)
  | CannotFetchInstruction (e : MemoryError)
  | StackOverflow
  | StackUnderflow
  | MemoryAccess (e : MemoryError)
deriving DecidableEq

/-- `yamos6502.rs` — `RunExit`. -/
inductive RunExit where
  | Executed (insn : Insn)
  | Interrupt
  | NonMaskableInterrupt
deriving DecidableEq

/-- `yamos6502.rs` — `StackWraparound` policy. -/
inductive StackWraparound where
  | Allow
  | Disallow
deriving DecidableEq

/-- `yamos6502.rs` — `IRQ_BRK_VECTOR`. -/
def IRQ_BRK_VECTOR : Nat := 0xFFFE

/-- `yamos6502.rs` — `RESET_VECTOR`. -/
def RESET_VECTOR : Nat := 0xFFFC

/-- `yamos6502.rs` — `NMI_VECTOR`. -/
def NMI_VECTOR : Nat := 0xFFFA

/-- `yamos6502.rs` — `STACK_BOTTOM`. -/
def STACK_BOTTOM : Nat := 0x0100

/-- The `Memory` trait of `yamos6502.rs`: a 16-bit addressable, 8-bit
cell memory over a host-chosen state type `σ`.  Reads are modelled as
pure (no real implementation in the repository mutates on read). -/
structure Machine (σ : Type) where
  read : σ → Nat → Except MemoryError Nat
  write : σ → Nat → Nat → Except MemoryError σ

/-- `yamos6502.rs` — the `Mos6502` CPU state. -/
structure Mos6502 (σ : Type) where
  mem : σ
  reg_file : RegisterFile
  reset_pending : Bool
  irq_pending : Bool
  nmi_pending : Bool
  fault : Option RunError
  last_opcode : Nat
  allow_stack_wraparound : StackWraparound

/-- Sequencing of fallible CPU operations: the Rust `?` operator on a
`&mut self` method.  On error, the state at the point of the error is
kept (mutations already performed are not undone). -/
def bindR {σ : Type} {α β : Type}
    (r : Except RunError α × Mos6502 σ)
    (f : α → Mos6502 σ → Except RunError β × Mos6502 σ) :
    Except RunError β × Mos6502 σ :=
  match r with
  | (Except.error e, c) => (Except.error e, c)
  | (Except.ok a, c) => f a c

/-- Sign extension of a byte, the Rust `as i8` cast. -/
def sext8 (b : Nat) : Int :=
  if b < 128 then (b : Int) else (b : Int) - 256

/-- `update_flags_nz`: Z from `data == 0`, N from `(data as i8) < 0`
(i.e. bit 7 of the byte). -/
def RegisterFile.update_nz (rf : RegisterFile) (data : Nat) : RegisterFile :=
  (rf.set_flag_from_cond .Zero (data == 0)).set_flag_from_cond .Negative
    (decide (128 ≤ data))

variable {σ : Type} (M : Machine σ)

/-- `Mos6502::read_u8`. -/
def read_u8 (c : Mos6502 σ) (addr : Nat) : Except RunError Nat × Mos6502 σ :=
  match M.read c.mem addr with
  | .ok v => (.ok (wrap8 v), c)
  | .error e => (.error (RunError.MemoryAccess e), c)

/-- `Mos6502::write_u8`. -/
def write_u8 (c : Mos6502 σ) (addr value : Nat) : Except RunError Unit × Mos6502 σ :=
  match M.write c.mem addr (wrap8 value) with
  | .ok m => (.ok (), { c with mem := m })
  | .error e => (.error (RunError.MemoryAccess e), c)

/-- `Mos6502::read_u16`: little-endian, the high byte read at
`addr.wrapping_add(1)`. -/
def read_u16 (c : Mos6502 σ) (addr : Nat) : Except RunError Nat × Mos6502 σ :=
  match M.read c.mem addr with
  | .error e => (.error (RunError.MemoryAccess e), c)
  | .ok lo =>
    match M.read c.mem (wrap16 (addr + 1)) with
    | .error e => (.error (RunError.MemoryAccess e), c)
    | .ok hi => (.ok (wrap8 lo + 256 * wrap8 hi), c)

/-- `Mos6502::get_effective_address`: computes the effective address
for an addressing mode; expects PC already past the opcode and
advances it past the operand bytes. -/
def get_effective_address (c : Mos6502 σ) (addr_mode : AddressMode) :
    Except RunError Nat × Mos6502 σ :=
  match addr_mode with
  | .Immediate | .Relative =>
    let ea := c.reg_file.pc
    (.ok ea, { c with reg_file := c.reg_file.adjust_pc_by 1 })
  | .Indirect =>
    bindR (read_u16 M c c.reg_file.pc) fun ptr c =>
    let c := { c with reg_file := c.reg_file.adjust_pc_by 2 }
    bindR (read_u16 M c ptr) fun ea c =>
    (.ok ea, c)
  | .Xindirect =>
    bindR (read_u8 M c c.reg_file.pc) fun v c =>
    let ptr := wrap8 (v + c.reg_file.x)
    let c := { c with reg_file := c.reg_file.adjust_pc_by 1 }
    bindR (read_u16 M c ptr) fun ea c =>
    (.ok ea, c)
  | .IndirectY =>
    bindR (read_u8 M c c.reg_file.pc) fun ptr c =>
    let c := { c with reg_file := c.reg_file.adjust_pc_by 1 }
    bindR (read_u16 M c ptr) fun w c =>
    (.ok (wrap16 (w + c.reg_file.y)), c)
  | .Absolute =>
    bindR (read_u16 M c c.reg_file.pc) fun ea c =>
    (.ok ea, { c with reg_file := c.reg_file.adjust_pc_by 2 })
  | .AbsoluteX =>
    bindR (read_u16 M c c.reg_file.pc) fun w c =>
    let ea := wrap16 (w + c.reg_file.x)
    (.ok ea, { c with reg_file := c.reg_file.adjust_pc_by 2 })
  | .AbsoluteY =>
    bindR (read_u16 M c c.reg_file.pc) fun w c =>
    let ea := wrap16 (w + c.reg_file.y)
    (.ok ea, { c with reg_file := c.reg_file.adjust_pc_by 2 })
  | .Zeropage =>
    bindR (read_u8 M c c.reg_file.pc) fun ea c =>
    (.ok ea, { c with reg_file := c.reg_file.adjust_pc_by 1 })
  | .ZeropageX =>
    bindR (read_u8 M c c.reg_file.pc) fun v c =>
    let ea := wrap8 (v + c.reg_file.x)
    (.ok ea, { c with reg_file := c.reg_file.adjust_pc_by 1 })
  | .ZeropageY =>
    bindR (read_u8 M c c.reg_file.pc) fun v c =>
    let ea := wrap8 (v + c.reg_file.y)
    (.ok ea, { c with reg_file := c.reg_file.adjust_pc_by 1 })

/-- `Mos6502::read_modify_to_reg`. -/
def read_modify_to_reg (c : Mos6502 σ) (addr_mode : AddressMode) (reg : Register)
    (modify : Nat → Nat) : Except RunError Unit × Mos6502 σ :=
  bindR (get_effective_address M c addr_mode) fun ea c =>
  bindR (read_u8 M c ea) fun value c =>
  let value := modify value
  let c := { c with reg_file := (c.reg_file.setReg reg value).update_nz value }
  (.ok (), c)

/-- `Mos6502::mem_to_reg`. -/
def mem_to_reg (c : Mos6502 σ) (addr_mode : AddressMode) (reg : Register) :
    Except RunError Unit × Mos6502 σ :=
  read_modify_to_reg M c addr_mode reg (fun v => v)

/-- `Mos6502::reg_to_mem`. -/
def reg_to_mem (c : Mos6502 σ) (reg : Register) (addr_mode : AddressMode) :
    Except RunError Unit × Mos6502 σ :=
  bindR (get_effective_address M c addr_mode) fun ea c =>
  write_u8 M c ea (c.reg_file.reg reg)

/-- `Mos6502::reg_to_reg` (infallible). -/
def reg_to_reg (c : Mos6502 σ) (reg_src reg_dst : Register) : Mos6502 σ :=
  let rf := c.reg_file.setReg reg_dst (c.reg_file.reg reg_src)
  { c with reg_file := rf.update_nz (rf.reg reg_dst) }

/-- `Mos6502::read_modify_write_mem`. -/
def read_modify_write_mem (c : Mos6502 σ) (addr_mode : AddressMode)
    (modify : Nat → Nat) : Except RunError Unit × Mos6502 σ :=
  bindR (get_effective_address M c addr_mode) fun ea c =>
  bindR (read_u8 M c ea) fun value c =>
  let value := modify value
  bindR (write_u8 M c ea value) fun _ c =>
  (.ok (), { c with reg_file := c.reg_file.update_nz value })

/-- `Mos6502::read_modify_write_reg` (infallible). -/
def read_modify_write_reg (c : Mos6502 σ) (reg : Register) (modify : Nat → Nat) :
    Mos6502 σ :=
  let value := modify (c.reg_file.reg reg)
  { c with reg_file := (c.reg_file.setReg reg value).update_nz value }

/-- `Mos6502::stack_push_u8`: writes at `STACK_BOTTOM + S`, decrements
S with 8-bit wrap, then reports `StackOverflow` when the pre-push S
was `u8::MAX` under the `Disallow` policy. -/
def stack_push_u8 (c : Mos6502 σ) (value : Nat) : Except RunError Unit × Mos6502 σ :=
  let sp := c.reg_file.s
  bindR (write_u8 M c (STACK_BOTTOM + sp) value) fun _ c =>
  let c := { c with reg_file := c.reg_file.setReg .S (wrap8 (sp + 255)) }
  if sp = 255 ∧ c.allow_stack_wraparound = StackWraparound.Disallow then
    (.error RunError.StackOverflow, c)
  else
    (.ok (), c)

/-- `Mos6502::stack_pull_u8`: increments S with 8-bit wrap, reports
`StackUnderflow` when the incremented S wrapped to 0 under `Disallow`,
otherwise reads at `STACK_BOTTOM + S`. -/
def stack_pull_u8 (c : Mos6502 σ) : Except RunError Nat × Mos6502 σ :=
  let sp := wrap8 (c.reg_file.s + 1)
  if sp = 0 ∧ c.allow_stack_wraparound = StackWraparound.Disallow then
    (.error RunError.StackUnderflow, c)
  else
    bindR (read_u8 M c (STACK_BOTTOM + sp)) fun value c =>
    (.ok value, { c with reg_file := c.reg_file.setReg .S sp })

/-- `Mos6502::stack_push_u16`: high byte first, then low byte. -/
def stack_push_u16 (c : Mos6502 σ) (value : Nat) : Except RunError Unit × Mos6502 σ :=
  bindR (stack_push_u8 M c (value >>> 8)) fun _ c =>
  stack_push_u8 M c (wrap8 value)

/-- `Mos6502::stack_pull_u16`: low byte first, then high byte. -/
def stack_pull_u16 (c : Mos6502 σ) : Except RunError Nat × Mos6502 σ :=
  bindR (stack_pull_u8 M c) fun lo c =>
  bindR (stack_pull_u8 M c) fun hi c =>
  (.ok (lo + 256 * hi), c)

/-- `Mos6502::branch`: when taken, reads the offset byte through the
`Relative` effective address and adds it (sign-extended) to PC;
otherwise skips the offset byte. -/
def branch (c : Mos6502 σ) (addr_mode : AddressMode) (cond : Bool) :
    Except RunError Unit × Mos6502 σ :=
  if cond then
    bindR (get_effective_address M c addr_mode) fun ea c =>
    bindR (read_u8 M c ea) fun offset c =>
    (.ok (), { c with reg_file := c.reg_file.adjust_pc_by (sext8 offset) })
  else
    (.ok (), { c with reg_file := c.reg_file.adjust_pc_by 1 })

/-- `Mos6502::compare_reg_mem`: N and Z from the wrapping difference,
C iff `reg ≥ mem` (unsigned). -/
def compare_reg_mem (c : Mos6502 σ) (reg : Register) (addr_mode : AddressMode) :
    Except RunError Unit × Mos6502 σ :=
  bindR (get_effective_address M c addr_mode) fun ea c =>
  bindR (read_u8 M c ea) fun memv c =>
  let regv := c.reg_file.reg reg
  let rf := c.reg_file.update_nz (wrap8 (regv + 256 - memv))
  (.ok (), { c with reg_file := rf.set_flag_from_cond .Carry (decide (memv ≤ regv)) })

/-- `Mos6502::bit`. -/
def bit_insn (c : Mos6502 σ) (addr_mode : AddressMode) :
    Except RunError Unit × Mos6502 σ :=
  bindR (get_effective_address M c addr_mode) fun ea c =>
  bindR (read_u8 M c ea) fun data c =>
  let a := c.reg_file.a
  let rf := c.reg_file.set_flag_from_cond .Zero (data &&& a == 0)
  let rf := rf.set_flag_from_cond .Negative (data &&& Status.Negative.mask != 0)
  let rf := rf.set_flag_from_cond .Overflow (data &&& Status.Overflow.mask != 0)
  (.ok (), { c with reg_file := rf })

/-- `Mos6502::lsr` (memory operand; the closure of
`read_modify_write_mem` inlined so that the captured carry is
threaded). -/
def lsr (c : Mos6502 σ) (addr_mode : AddressMode) : Except RunError Unit × Mos6502 σ :=
  bindR (get_effective_address M c addr_mode) fun ea c =>
  bindR (read_u8 M c ea) fun v c =>
  let carry := v &&& 1 != 0
  let value := v >>> 1
  bindR (write_u8 M c ea value) fun _ c =>
  let rf := (c.reg_file.update_nz value).set_flag_from_cond .Carry carry
  (.ok (), { c with reg_file := rf })

/-- `Mos6502::lsra` (accumulator operand). -/
def lsra (c : Mos6502 σ) : Mos6502 σ :=
  let v := c.reg_file.reg .A
  let carry := v &&& 1 != 0
  let value := v >>> 1
  let rf := ((c.reg_file.setReg .A value).update_nz value).set_flag_from_cond .Carry carry
  { c with reg_file := rf }

/-- `u8::rotate_left(1)`. -/
def rotl8 (v : Nat) : Nat := wrap8 (v <<< 1) ||| (v >>> 7)

/-- `u8::rotate_right(1)`. -/
def rotr8 (v : Nat) : Nat := (v >>> 1) ||| wrap8 (v <<< 7)

/-- `Mos6502::rol` (memory operand). -/
def rol (c : Mos6502 σ) (addr_mode : AddressMode) : Except RunError Unit × Mos6502 σ :=
  let carry_set := c.reg_file.flag_set .Carry
  bindR (get_effective_address M c addr_mode) fun ea c =>
  bindR (read_u8 M c ea) fun v c =>
  let carry := v >>> 7 != 0
  let value := if carry_set then rotl8 v ||| 0b00000001 else rotl8 v &&& 0b11111110
  bindR (write_u8 M c ea value) fun _ c =>
  let rf := (c.reg_file.update_nz value).set_flag_from_cond .Carry carry
  (.ok (), { c with reg_file := rf })

/-- `Mos6502::rola` (accumulator operand). -/
def rola (c : Mos6502 σ) : Mos6502 σ :=
  let carry_set := c.reg_file.flag_set .Carry
  let v := c.reg_file.reg .A
  let carry := v >>> 7 != 0
  let value := if carry_set then rotl8 v ||| 0b00000001 else rotl8 v &&& 0b11111110
  let rf := ((c.reg_file.setReg .A value).update_nz value).set_flag_from_cond .Carry carry
  { c with reg_file := rf }

/-- `Mos6502::ror` (memory operand). -/
def ror (c : Mos6502 σ) (addr_mode : AddressMode) : Except RunError Unit × Mos6502 σ :=
  let carry_set := c.reg_file.flag_set .Carry
  bindR (get_effective_address M c addr_mode) fun ea c =>
  bindR (read_u8 M c ea) fun v c =>
  let carry := v &&& 1 != 0
  let value := if carry_set then rotr8 v ||| 0b10000000 else rotr8 v &&& 0b01111111
  bindR (write_u8 M c ea value) fun _ c =>
  let rf := (c.reg_file.update_nz value).set_flag_from_cond .Carry carry
  (.ok (), { c with reg_file := rf })

/-- `Mos6502::rora` (accumulator operand). -/
def rora (c : Mos6502 σ) : Mos6502 σ :=
  let carry_set := c.reg_file.flag_set .Carry
  let v := c.reg_file.reg .A
  let carry := v &&& 1 != 0
  let value := if carry_set then rotr8 v ||| 0b10000000 else rotr8 v &&& 0b01111111
  let rf := ((c.reg_file.setReg .A value).update_nz value).set_flag_from_cond .Carry carry
  { c with reg_file := rf }

/-- `Mos6502::asl` (memory operand; `wrapping_shl(1)`). -/
def asl (c : Mos6502 σ) (addr_mode : AddressMode) : Except RunError Unit × Mos6502 σ :=
  bindR (get_effective_address M c addr_mode) fun ea c =>
  bindR (read_u8 M c ea) fun v c =>
  let carry := v >>> 7 != 0
  let value := wrap8 (v <<< 1)
  bindR (write_u8 M c ea value) fun _ c =>
  let rf := (c.reg_file.update_nz value).set_flag_from_cond .Carry carry
  (.ok (), { c with reg_file := rf })

/-- `Mos6502::asla` (accumulator operand). -/
def asla (c : Mos6502 σ) : Mos6502 σ :=
  let v := c.reg_file.reg .A
  let carry := v >>> 7 != 0
  let value := wrap8 (v <<< 1)
  let rf := ((c.reg_file.setReg .A value).update_nz value).set_flag_from_cond .Carry carry
  { c with reg_file := rf }

/-- The body of the closure in `Mos6502::adc`, as a pure function of
the accumulator `a`, the operand `v`, the carry-in, and (for the
decimal branch, which keeps the previous V flag) the overflow-in.
Returns `(result byte, carry_out, overflow, negative, zero)`.  The
`u8` additions of the decimal branch are embedded with wrapping
semantics. -/
def adc_core (decimal : Bool) (a v carry_in : Nat) (overflow_in : Bool) :
    Nat × Bool × Bool × Bool × Bool :=
  let rco :=
    if decimal = false then
      let r := wrap16 (v + a + carry_in)
      (r, decide (r &&& 0xff00 ≠ 0), decide ((a ^^^ r) &&& (v ^^^ r) &&& 0x0080 ≠ 0))
    else
      let r0 := wrap8 (bcd_to_u8 a + bcd_to_u8 v + carry_in)
      let carry_out := decide (r0 > 99)
      let r1 := if r0 > 99 then r0 - 100 else r0
      (u8_to_bcd r1, carry_out, overflow_in)
  match rco with
  | (r, carry_out, overflow) =>
    (wrap8 r, carry_out, overflow, decide (r &&& 0x80 ≠ 0), decide (r &&& 0xff = 0))

/-- `Mos6502::adc`: flags sampled before the operand read, the core
computation of the closure, the `read_modify_to_reg` register/NZ
update, then the final C, V, N, Z writes. -/
def adc (c : Mos6502 σ) (addr_mode : AddressMode) : Except RunError Unit × Mos6502 σ :=
  let decimal := c.reg_file.flag_set .Decimal
  let carry_in : Nat := if c.reg_file.flag_set .Carry then 1 else 0
  let overflow_in := c.reg_file.flag_set .Overflow
  let a := c.reg_file.a
  bindR (get_effective_address M c addr_mode) fun ea c =>
  bindR (read_u8 M c ea) fun v c =>
  match adc_core decimal a v carry_in overflow_in with
  | (value, carry_out, overflow, negative, zero) =>
    let rf := (c.reg_file.setReg .A value).update_nz value
    let rf := rf.set_flag_from_cond .Carry carry_out
    let rf := rf.set_flag_from_cond .Overflow overflow
    let rf := rf.set_flag_from_cond .Negative negative
    let rf := rf.set_flag_from_cond .Zero zero
    (.ok (), { c with reg_file := rf })

/-- The body of the closure in `Mos6502::sbc`.  In the binary branch
the 16-bit wrapping difference `a - v - borrow_in` is formed; `!v` is
the 16-bit complement `v ^^^ 0xFFFF`.  In the decimal branch the `u8`
wrapping difference of the BCD-decoded operands is reinterpreted as
`i8`. -/
def sbc_core (decimal : Bool) (a v borrow_in : Nat) (overflow_in : Bool) :
    Nat × Bool × Bool × Bool × Bool :=
  let rbo :=
    if decimal = false then
      let r := wrap16 (wrap16 (a + 65536 - v) + 65536 - borrow_in)
      (r, decide (r &&& 0xff00 ≠ 0),
       decide ((a ^^^ r) &&& ((v ^^^ 65535) ^^^ r) &&& 0x0080 ≠ 0))
    else
      let d := wrap8 (wrap8 (bcd_to_u8 a + 256 - bcd_to_u8 v) + 256 - borrow_in)
      let borrow_out := decide (128 ≤ d)
      let r := if 128 ≤ d then wrap8 (d + 100) else d
      (u8_to_bcd r, borrow_out, overflow_in)
  match rbo with
  | (r, borrow_out, overflow) =>
    (wrap8 r, borrow_out, overflow, decide (r &&& 0x80 ≠ 0), decide (r &&& 0xff = 0))

/-- `Mos6502::sbc`: like `adc`, with the borrow as the complemented
carry and C set to the inverted borrow-out. -/
def sbc (c : Mos6502 σ) (addr_mode : AddressMode) : Except RunError Unit × Mos6502 σ :=
  let decimal := c.reg_file.flag_set .Decimal
  let borrow_in : Nat := if c.reg_file.flag_set .Carry then 0 else 1
  let overflow_in := c.reg_file.flag_set .Overflow
  let a := c.reg_file.a
  bindR (get_effective_address M c addr_mode) fun ea c =>
  bindR (read_u8 M c ea) fun v c =>
  match sbc_core decimal a v borrow_in overflow_in with
  | (value, borrow_out, overflow, negative, zero) =>
    let rf := (c.reg_file.setReg .A value).update_nz value
    let rf := rf.set_flag_from_cond .Carry (!borrow_out)
    let rf := rf.set_flag_from_cond .Overflow overflow
    let rf := rf.set_flag_from_cond .Negative negative
    let rf := rf.set_flag_from_cond .Zero zero
    (.ok (), { c with reg_file := rf })

/-- The dispatch `match` of `Mos6502::step` over the decoded
instruction. -/
def exec_insn (c : Mos6502 σ) (insn : Insn) : Except RunError Unit × Mos6502 σ :=
  match insn with
  | .BRK =>
    let c := { c with reg_file := c.reg_file.adjust_pc_by 1 }
    bindR (stack_push_u16 M c c.reg_file.pc) fun _ c =>
    let p := c.reg_file.reg .P
    bindR (stack_push_u8 M c (p ||| Status.Break.mask ||| Status.AlwaysSet.mask)) fun _ c =>
    let c := { c with reg_file := c.reg_file.set_flag .InterruptDisable }
    bindR (read_u16 M c IRQ_BRK_VECTOR) fun new_pc c =>
    (.ok (), { c with reg_file := c.reg_file.set_pc new_pc })
  | .BCC addr_mode => branch M c addr_mode (!c.reg_file.flag_set .Carry)
  | .BCS addr_mode => branch M c addr_mode (c.reg_file.flag_set .Carry)
  | .BNE addr_mode => branch M c addr_mode (!c.reg_file.flag_set .Zero)
  | .BEQ addr_mode => branch M c addr_mode (c.reg_file.flag_set .Zero)
  | .BVC addr_mode => branch M c addr_mode (!c.reg_file.flag_set .Overflow)
  | .BVS addr_mode => branch M c addr_mode (c.reg_file.flag_set .Overflow)
  | .BPL addr_mode => branch M c addr_mode (!c.reg_file.flag_set .Negative)
  | .BMI addr_mode => branch M c addr_mode (c.reg_file.flag_set .Negative)
  | .BIT addr_mode => bit_insn M c addr_mode
  | .CLC => (.ok (), { c with reg_file := c.reg_file.clear_flag .Carry })
  | .CLD => (.ok (), { c with reg_file := c.reg_file.clear_flag .Decimal })
  | .CLI => (.ok (), { c with reg_file := c.reg_file.clear_flag .InterruptDisable })
  | .CLV => (.ok (), { c with reg_file := c.reg_file.clear_flag .Overflow })
  | .CPX addr_mode => compare_reg_mem M c .X addr_mode
  | .CPY addr_mode => compare_reg_mem M c .Y addr_mode
  | .DEY => (.ok (), read_modify_write_reg c .Y (fun v => wrap8 (v + 255)))
  | .INX => (.ok (), read_modify_write_reg c .X (fun v => wrap8 (v + 1)))
  | .INY => (.ok (), read_modify_write_reg c .Y (fun v => wrap8 (v + 1)))
  | .JMP addr_mode =>
    bindR (get_effective_address M c addr_mode) fun ea c =>
    (.ok (), { c with reg_file := c.reg_file.set_pc ea })
  | .JSR addr_mode =>
    bindR (get_effective_address M c addr_mode) fun ea c =>
    bindR (stack_push_u16 M c (wrap16 (c.reg_file.pc + 65535))) fun _ c =>
    (.ok (), { c with reg_file := c.reg_file.set_pc ea })
  | .LDY addr_mode => mem_to_reg M c addr_mode .Y
  | .PHA => stack_push_u8 M c c.reg_file.a
  | .PHP =>
    let p := c.reg_file.reg .P
    stack_push_u8 M c (p ||| Status.Break.mask ||| Status.AlwaysSet.mask)
  | .PLA =>
    bindR (stack_pull_u8 M c) fun value c =>
    (.ok (), { c with reg_file := (c.reg_file.setReg .A value).update_nz value })
  | .PLP =>
    bindR (stack_pull_u8 M c) fun value c =>
    let rf := (c.reg_file.setReg .P value).clear_flag .Break
    (.ok (), { c with reg_file := rf.set_flag .AlwaysSet })
  | .RTI =>
    bindR (stack_pull_u8 M c) fun value c =>
    let rf := (c.reg_file.setReg .P value).clear_flag .Break
    let c := { c with reg_file := rf.set_flag .AlwaysSet }
    bindR (stack_pull_u16 M c) fun pc c =>
    (.ok (), { c with reg_file := c.reg_file.set_pc pc })
  | .RTS =>
    bindR (stack_pull_u16 M c) fun pc c =>
    (.ok (), { c with reg_file := c.reg_file.set_pc (wrap16 (pc + 1)) })
  | .SEC => (.ok (), { c with reg_file := c.reg_file.set_flag .Carry })
  | .SED => (.ok (), { c with reg_file := c.reg_file.set_flag .Decimal })
  | .SEI => (.ok (), { c with reg_file := c.reg_file.set_flag .InterruptDisable })
  | .STY addr_mode => reg_to_mem M c .Y addr_mode
  | .TAY => (.ok (), reg_to_reg c .A .Y)
  | .TYA => (.ok (), reg_to_reg c .Y .A)
  | .ADC addr_mode => adc M c addr_mode
  | .AND addr_mode =>
    let a := c.reg_file.a
    read_modify_to_reg M c addr_mode .A (fun v => v &&& a)
  | .CMP addr_mode => compare_reg_mem M c .A addr_mode
  | .EOR addr_mode =>
    let a := c.reg_file.a
    read_modify_to_reg M c addr_mode .A (fun v => v ^^^ a)
  | .LDA addr_mode => mem_to_reg M c addr_mode .A
  | .ORA addr_mode =>
    let a := c.reg_file.a
    read_modify_to_reg M c addr_mode .A (fun v => v ||| a)
  | .SBC addr_mode => sbc M c addr_mode
  | .STA addr_mode => reg_to_mem M c .A addr_mode
  | .ASLA => (.ok (), asla c)
  | .ASL addr_mode => asl M c addr_mode
  | .DEC addr_mode => read_modify_write_mem M c addr_mode (fun v => wrap8 (v + 255))
  | .DEX => (.ok (), read_modify_write_reg c .X (fun v => wrap8 (v + 255)))
  | .INC addr_mode => read_modify_write_mem M c addr_mode (fun v => wrap8 (v + 1))
  | .LDX addr_mode => mem_to_reg M c addr_mode .X
  | .LSRA => (.ok (), lsra c)
  | .LSR addr_mode => lsr M c addr_mode
  | .NOP => (.ok (), c)
  | .ROLA => (.ok (), rola c)
  | .ROL addr_mode => rol M c addr_mode
  | .RORA => (.ok (), rora c)
  | .ROR addr_mode => ror M c addr_mode
  | .STX addr_mode => reg_to_mem M c .X addr_mode
  | .TAX => (.ok (), reg_to_reg c .A .X)
  | .TSX => (.ok (), reg_to_reg c .S .X)
  | .TXA => (.ok (), reg_to_reg c .X .A)
  | .TXS => (.ok (), { c with reg_file := c.reg_file.setReg .S c.reg_file.x })
  | .JAM => (.error (RunError.InvalidInstruction c.last_opcode), c)

/-- `Mos6502::step`: fetch the opcode (storing it in `last_opcode`),
advance PC, decode, execute, and report the retired instruction. -/
def step (c : Mos6502 σ) : Except RunError RunExit × Mos6502 σ :=
  match M.read c.mem c.reg_file.pc with
  | .error e => (.error (RunError.CannotFetchInstruction e), c)
  | .ok op =>
    let c := { c with last_opcode := wrap8 op }
    let c := { c with reg_file := c.reg_file.adjust_pc_by 1 }
    let insn := decode_insn c.last_opcode
    bindR (exec_insn M c insn) fun _ c =>
    (.ok (RunExit.Executed insn), c)

/-- The reset block at the top of `Mos6502::run`: when
`reset_pending`, load PC from `RESET_VECTOR`, clear the latched fault,
apply `RegisterFile::reset`, and clear the flag. -/
def handle_reset (c : Mos6502 σ) : Except RunError Unit × Mos6502 σ :=
  if c.reset_pending then
    bindR (read_u16 M c RESET_VECTOR) fun new_pc c =>
    let c := { c with reg_file := c.reg_file.set_pc new_pc }
    let c := { c with fault := none }
    let c := { c with reg_file := c.reg_file.reset }
    (.ok (), { c with reset_pending := false })
  else
    (.ok (), c)

/-- `Mos6502::run`: reset handling, fault gate, NMI, IRQ (masked by
I), then a single `step` with register rollback and fault latching on
error. -/
def run (c : Mos6502 σ) : Except RunError RunExit × Mos6502 σ :=
  bindR (handle_reset M c) fun _ c =>
  match c.fault with
  | some f => (.error f, c)
  | none =>
    if c.nmi_pending then
      let c := { c with reg_file := c.reg_file.set_flag .InterruptDisable }
      bindR (stack_push_u16 M c c.reg_file.pc) fun _ c =>
      let p := c.reg_file.reg .P
      bindR (stack_push_u8 M c
        (p &&& (Status.Break.mask ^^^ 255) ||| Status.AlwaysSet.mask)) fun _ c =>
      bindR (read_u16 M c NMI_VECTOR) fun new_pc c =>
      let c := { c with reg_file := c.reg_file.set_pc new_pc }
      (.ok RunExit.NonMaskableInterrupt, { c with nmi_pending := false })
    else if !c.reg_file.flag_set .InterruptDisable && c.irq_pending then
      let c := { c with reg_file := c.reg_file.set_flag .InterruptDisable }
      bindR (stack_push_u16 M c c.reg_file.pc) fun _ c =>
      let p := c.reg_file.reg .P
      bindR (stack_push_u8 M c
        (p &&& (Status.Break.mask ^^^ 255) ||| Status.AlwaysSet.mask)) fun _ c =>
      bindR (read_u16 M c IRQ_BRK_VECTOR) fun new_pc c =>
      let c := { c with reg_file := c.reg_file.set_pc new_pc }
      (.ok RunExit.Interrupt, { c with irq_pending := false })
    else
      let registers := c.reg_file
      match step M c with
      | (.error e, c') => (.error e, { c' with fault := some e, reg_file := registers })
      | (.ok o, c') => (.ok o, c')

/-- `Mos6502::new`. -/
def mos6502_new (memory : σ) (allow_stack_wraparound : StackWraparound) : Mos6502 σ :=
  { mem := memory
    reg_file := RegisterFile.new
    reset_pending := false
    nmi_pending := false
    irq_pending := false
    fault := none
    last_opcode := 0
    allow_stack_wraparound := allow_stack_wraparound }

/-- `Mos6502::with_registers`. -/
def with_registers (memory : σ) (regf : RegisterFile)
    (allow_stack_wraparound : StackWraparound) : Mos6502 σ :=
  { mem := memory
    reg_file := regf
    reset_pending := false
    nmi_pending := false
    irq_pending := false
    fault := none
    last_opcode := 0
    allow_stack_wraparound := allow_stack_wraparound }

/-- A concrete host memory for instantiating the theorems: a byte
store with per-address readable/writable masks, in the role of the
`TestMemory` of the repository's test suite. -/
structure TestMem where
  store : Nat → Nat
  readable : Nat → Bool
  writable : Nat → Bool

/-- The `Memory` implementation over `TestMem`. -/
def testMachine : Machine TestMem :=
  { read := fun m a => if m.readable a then .ok (m.store a) else .error (.BadAddress a)
    write := fun m a v =>
      if m.writable a then
        .ok { m with store := fun x => if x = a then v else m.store x }
      else
        .error (.ReadOnlyAddress a) }

/-- Overlay a list of bytes starting at `start` over a byte store. -/
def storeBytes (f : Nat → Nat) (start : Nat) (bytes : List Nat) : Nat → Nat :=
  fun a => if start ≤ a ∧ a < start + bytes.length then bytes.getD (a - start) 0 else f a


/-- A fully accessible memory whose every byte is zero. -/
def zeroMem : TestMem :=
  { store := fun _ => 0, readable := fun _ => true, writable := fun _ => true }

/-- CPU with S = 0x00 under the `Disallow` stack policy. -/
def cpuStackS00 : Mos6502 TestMem :=
  with_registers zeroMem { pc := 0, a := 0x42, x := 0, y := 0, p := 0x20, s := 0x00 }
    StackWraparound.Disallow

/-- CPU with S = 0xFF under the `Disallow` stack policy. -/
def cpuStackSFF : Mos6502 TestMem :=
  with_registers zeroMem { pc := 0, a := 0x42, x := 0, y := 0, p := 0x20, s := 0xFF }
    StackWraparound.Disallow

/-- CPU with S = 0x00 under the `Allow` stack policy. -/
def cpuStackS00Allow : Mos6502 TestMem :=
  with_registers zeroMem { pc := 0, a := 0x42, x := 0, y := 0, p := 0x20, s := 0x00 }
    StackWraparound.Allow

/-- CPU with S = 0xFF under the `Allow` stack policy. -/
def cpuStackSFFAllow : Mos6502 TestMem :=
  with_registers zeroMem { pc := 0, a := 0x42, x := 0, y := 0, p := 0x20, s := 0xFF }
    StackWraparound.Allow

/-- Memory holding the reset vector `0x0200` at `0xFFFC`. -/
def memResetVec : TestMem :=
  { store := storeBytes (fun _ => 0xEA) 0xFFFC [0x00, 0x02]
    readable := fun _ => true
    writable := fun _ => true }

/-- CPU awaiting a reset. -/
def cpuResetPending : Mos6502 TestMem :=
  { mos6502_new memResetVec StackWraparound.Disallow with reset_pending := true }

/-- Memory whose every byte is the invalid opcode `0x02`. -/
def memJam : TestMem :=
  { store := fun _ => 0x02, readable := fun _ => true, writable := fun _ => true }

/-- CPU about to fetch the invalid opcode. -/
def cpuJam : Mos6502 TestMem :=
  with_registers memJam { pc := 0x0300, a := 1, x := 2, y := 3, p := 0x24, s := 0x10 }
    StackWraparound.Disallow

/-- Memory holding the IRQ vector `0x1234` at `0xFFFE` and `NOP`
opcodes everywhere else. -/
def memIrqVec : TestMem :=
  { store := storeBytes (fun _ => 0xEA) 0xFFFE [0x34, 0x12]
    readable := fun _ => true
    writable := fun _ => true }

/-- CPU with a pending IRQ and I clear. -/
def cpuIrq : Mos6502 TestMem :=
  { with_registers memIrqVec
      { pc := 0x0201, a := 0, x := 0, y := 0, p := 0x20, s := 0x80 }
      StackWraparound.Disallow with irq_pending := true }

/-- CPU with a pending IRQ but I set. -/
def cpuIrqMasked : Mos6502 TestMem :=
  { with_registers memIrqVec
      { pc := 0x0201, a := 0, x := 0, y := 0, p := 0x24, s := 0x80 }
      StackWraparound.Disallow with irq_pending := true }

/-- Memory that refuses writes at `0x017F` only. -/
def memNoWrite17F : TestMem :=
  { store := fun _ => 0xEA
    readable := fun _ => true
    writable := fun a => !(a == 0x017F) }

/-- CPU with a pending NMI whose service will fail on the second push. -/
def cpuNmiPartial : Mos6502 TestMem :=
  { with_registers memNoWrite17F
      { pc := 0x0201, a := 0, x := 0, y := 0, p := 0x20, s := 0x80 }
      StackWraparound.Disallow with nmi_pending := true }

/-- Memory with `ADC #$50` at `0x0200`. -/
def memAdcImm50 : TestMem :=
  { store := storeBytes (fun _ => 0) 0x0200 [0x69, 0x50]
    readable := fun _ => true
    writable := fun _ => true }

/-- CPU for Scenario D: D = 0, C = 0, A = 0x50 about to run `ADC #$50`. -/
def cpuAdcScenD : Mos6502 TestMem :=
  with_registers memAdcImm50 { pc := 0x0200, a := 0x50, x := 0, y := 0, p := 0x20, s := 0xFF }
    StackWraparound.Disallow

/-- Memory with `BNE +0` at `0x0200`. -/
def memBneZero : TestMem :=
  { store := storeBytes (fun _ => 0) 0x0200 [0xD0, 0x00]
    readable := fun _ => true
    writable := fun _ => true }

/-- CPU with Z clear about to take `BNE +0`: the offset byte 0 sits at
`0x0201`. -/
def cpuBneZero : Mos6502 TestMem :=
  with_registers memBneZero { pc := 0x0200, a := 0, x := 0, y := 0, p := 0x20, s := 0xFF }
    StackWraparound.Disallow

/-- Memory with `BNE -5` (offset byte `0xFB`) at `0x0200`. -/
def memBneBack : TestMem :=
  { store := storeBytes (fun _ => 0) 0x0200 [0xD0, 0xFB]
    readable := fun _ => true
    writable := fun _ => true }

/-- CPU with Z clear about to take `BNE -5`. -/
def cpuBneBack : Mos6502 TestMem :=
  with_registers memBneBack { pc := 0x0200, a := 0, x := 0, y := 0, p := 0x20, s := 0xFF }
    StackWraparound.Disallow

/-- Memory whose every byte is the `NOP` opcode. -/
def memNop : TestMem :=
  { store := fun _ => 0xEA, readable := fun _ => true, writable := fun _ => true }

/-- CPU with P = 0 (status bit 5 clear) about to execute `NOP`. -/
def cpuNopP0 : Mos6502 TestMem :=
  with_registers memNop { pc := 0x0200, a := 0, x := 0, y := 0, p := 0, s := 0xFF }
    StackWraparound.Disallow

/-- Memory with `PLP` at `0x0200` and the byte `0xFF` at the stack
location `0x0181` that the pull will read. -/
def memPlp : TestMem :=
  { store := storeBytes (storeBytes (fun _ => 0) 0x0200 [0x28]) 0x0181 [0xFF]
    readable := fun _ => true
    writable := fun _ => true }

/-- CPU about to execute `PLP` pulling `0xFF`. -/
def cpuPlp : Mos6502 TestMem :=
  with_registers memPlp { pc := 0x0200, a := 0, x := 0, y := 0, p := 0x20, s := 0x80 }
    StackWraparound.Disallow

set_option maxRecDepth 10000

theorem decide_and128 (x : Nat) :
    decide (x &&& 128 ≠ 0) = decide (128 ≤ x % 256) := by
  have h7 : ∀ y : Fin 256, y.val.testBit 7 = decide (128 ≤ y.val) := by decide
  have hx : x &&& 128 = (Bool.toNat (x.testBit 7)) * 128 := by
    have := Nat.and_two_pow x 7
    simpa using this
  have hmod : (x % 256).testBit 7 = x.testBit 7 := by
    have := Nat.testBit_mod_two_pow x 8 7
    simpa using this
  have h7x := h7 ⟨x % 256, Nat.mod_lt _ (by decide)⟩
  simp only at h7x
  rw [hx, ← h7x, hmod]
  cases h : x.testBit 7 <;> simp [h]

theorem and255_eq_mod (x : Nat) : x &&& 255 = x % 256 := by
  apply Nat.eq_of_testBit_eq
  intro i
  have h255 : (255 : Nat) = 2 ^ 8 - 1 := by decide
  have h256 : (256 : Nat) = 2 ^ 8 := by decide
  rw [h255, h256, Nat.testBit_and, Nat.testBit_two_pow_sub_one, Nat.testBit_mod_two_pow]
  exact Bool.and_comm _ _

theorem decide_ff00_lt512 : ∀ x : Fin 512,
    decide (x.val &&& 65280 ≠ 0) = decide (255 < x.val) := by decide

theorem ff00_lt256 : ∀ x : Fin 256, x.val &&& 65280 = 0 := by decide

theorem ff00_hi : ∀ x : Fin 256, decide (((65280 + x.val) &&& 65280) ≠ 0) = true := by decide

theorem testBit7_mod (x : Nat) : (x % 256).testBit 7 = x.testBit 7 := by
  have := Nat.testBit_mod_two_pow x 8 7
  simpa using this

theorem decide_land_land128 (x y : Nat) :
    decide (x &&& y &&& 128 ≠ 0) = (x.testBit 7 && y.testBit 7) := by
  have hx : x &&& y &&& 128 = (Bool.toNat ((x &&& y).testBit 7)) * 128 := by
    have := Nat.and_two_pow (x &&& y) 7
    simpa using this
  rw [hx]
  have hand : (x &&& y).testBit 7 = (x.testBit 7 && y.testBit 7) := Nat.testBit_and x y 7
  cases h : (x &&& y).testBit 7 <;> rw [h] at hand <;> rw [← hand] <;> simp


/-- `Status.mask` is the power of two at the flag's bit. -/
theorem mask_eq_two_pow (f : Status) : f.mask = 2 ^ f.bit := by
  unfold Status.mask
  exact Nat.one_shiftLeft f.bit

/-- Every flag lives below bit 8. -/
theorem status_bit_lt8 (f : Status) : f.bit < 8 := by
  cases f <;> decide

/-- `flag_set` reads the flag's bit of P. -/
theorem flag_set_eq_testBit (rf : RegisterFile) (f : Status) :
    rf.flag_set f = rf.p.testBit f.bit := by
  unfold RegisterFile.flag_set
  rw [mask_eq_two_pow, Nat.and_two_pow]
  have hpos : 0 < 2 ^ f.bit := Nat.pow_pos (by decide)
  cases h : rf.p.testBit f.bit <;> simp [h]

/-- Bit `j` of the all-ones byte. -/
theorem testBit_255 (j : Nat) : Nat.testBit 255 j = decide (j < 8) := by
  rcases Nat.lt_or_ge j 8 with h | h
  · interval_cases j <;> decide
  · have h2 : (255 : Nat) < 2 ^ j :=
      Nat.lt_of_lt_of_le (by decide) (Nat.pow_le_pow_right (by decide) h)
    rw [Nat.testBit_lt_two_pow h2]
    simp [Nat.not_lt.mpr h]

/-- Effect of `set_flag_from_cond` on an arbitrary low bit of P. -/
theorem testBit_set_flag_from_cond (rf : RegisterFile) (f : Status) (cond : Bool)
    (j : Nat) (hj : j < 8) :
    (rf.set_flag_from_cond f cond).p.testBit j =
      (if f.bit = j then cond else rf.p.testBit j) := by
  unfold RegisterFile.set_flag_from_cond
  rw [mask_eq_two_pow]
  dsimp only
  by_cases hb : f.bit = j <;> cases cond <;>
    simp only [Bool.false_eq_true, if_true, if_false,
      Nat.testBit_or, Nat.testBit_and, Nat.testBit_xor, Nat.testBit_two_pow,
      testBit_255, Nat.zero_testBit, hb, hj] <;>
    simp [hb, hj]

/-- Effect of `set_flag_from_cond` on reading any flag. -/
theorem flag_set_after_set_flag_from_cond (rf : RegisterFile) (f g : Status) (cond : Bool) :
    (rf.set_flag_from_cond f cond).flag_set g =
      (if f.bit = g.bit then cond else rf.flag_set g) := by
  rw [flag_set_eq_testBit, flag_set_eq_testBit,
    testBit_set_flag_from_cond rf f cond g.bit (status_bit_lt8 g)]

/-- `read_u16` never mutates the CPU state. -/
theorem read_u16_snd {σ : Type} (M : Machine σ) (c : Mos6502 σ) (a : Nat) :
    (read_u16 M c a).2 = c := by
  unfold read_u16
  cases h : M.read c.mem a <;> simp [h]
  cases h2 : M.read c.mem (wrap16 (a + 1)) <;> simp [h2]

/-- `read_u8` never mutates the CPU state. -/
theorem read_u8_snd {σ : Type} (M : Machine σ) (c : Mos6502 σ) (a : Nat) :
    (read_u8 M c a).2 = c := by
  unfold read_u8
  cases h : M.read c.mem a <;> simp [h]

/-- `stack_push_u8` only changes the memory and S: the event flags,
the fault, P and PC are untouched, on success and on error alike. -/
theorem stack_push_u8_snd {σ : Type} (M : Machine σ) (c : Mos6502 σ) (v : Nat) :
    (stack_push_u8 M c v).2.fault = c.fault ∧
    (stack_push_u8 M c v).2.nmi_pending = c.nmi_pending ∧
    (stack_push_u8 M c v).2.irq_pending = c.irq_pending ∧
    (stack_push_u8 M c v).2.reset_pending = c.reset_pending ∧
    (stack_push_u8 M c v).2.reg_file.p = c.reg_file.p ∧
    (stack_push_u8 M c v).2.reg_file.pc = c.reg_file.pc := by
  unfold stack_push_u8 write_u8
  cases h : M.write c.mem (STACK_BOTTOM + c.reg_file.s) (wrap8 v) <;>
    simp [h, bindR, RegisterFile.setReg] <;> split <;> simp

/-- `stack_push_u16` likewise. -/
theorem stack_push_u16_snd {σ : Type} (M : Machine σ) (c : Mos6502 σ) (v : Nat) :
    (stack_push_u16 M c v).2.fault = c.fault ∧
    (stack_push_u16 M c v).2.nmi_pending = c.nmi_pending ∧
    (stack_push_u16 M c v).2.irq_pending = c.irq_pending ∧
    (stack_push_u16 M c v).2.reset_pending = c.reset_pending ∧
    (stack_push_u16 M c v).2.reg_file.p = c.reg_file.p ∧
    (stack_push_u16 M c v).2.reg_file.pc = c.reg_file.pc := by
  unfold stack_push_u16
  rcases h1 : stack_push_u8 M c (v >>> 8) with ⟨r1, c1⟩
  have hf1 := stack_push_u8_snd M c (v >>> 8)
  rw [h1] at hf1
  simp only at hf1
  cases r1 with
  | error e =>
    simp only [bindR]
    exact hf1
  | ok u =>
    have hf2 := stack_push_u8_snd M c1 (wrap8 v)
    simp only [bindR]
    exact ⟨hf2.1.trans hf1.1, hf2.2.1.trans hf1.2.1, hf2.2.2.1.trans hf1.2.2.1,
      hf2.2.2.2.1.trans hf1.2.2.2.1, hf2.2.2.2.2.1.trans hf1.2.2.2.2.1,
      hf2.2.2.2.2.2.trans hf1.2.2.2.2.2⟩
/-- `run` on a state with no pending reset, no latched fault, no
pending NMI, and a masked or absent IRQ reduces to the
snapshot/step/rollback block. -/
theorem run_step_phase {σ : Type} (M : Machine σ) (c : Mos6502 σ)
    (hr : c.reset_pending = false) (hf : c.fault = none)
    (hn : c.nmi_pending = false)
    (hq : (!c.reg_file.flag_set .InterruptDisable && c.irq_pending) = false) :
    run M c =
      (match step M c with
       | (.error e, c') => (.error e, { c' with fault := some e, reg_file := c.reg_file })
       | (.ok o, c') => (.ok o, c')) := by
  unfold run handle_reset
  simp only [hr, hf, hn, hq, Bool.false_eq_true, if_false, bindR]

/-- A successful `step` always reports a retired instruction. -/
theorem step_ok_executed {σ : Type} (M : Machine σ) (c : Mos6502 σ) (r : RunExit)
    (h : (step M c).1 = .ok r) : ∃ i, r = RunExit.Executed i := by
  unfold step at h
  rcases hfetch : M.read c.mem c.reg_file.pc with e | op
  · rw [hfetch] at h
    exact absurd h (by simp)
  · rw [hfetch] at h
    simp only [bindR] at h
    rcases hexec : exec_insn M
        { c with
          last_opcode := wrap8 op,
          reg_file := { c with last_opcode := wrap8 op }.reg_file.adjust_pc_by 1 }
        (decode_insn (wrap8 op)) with ⟨re, ce⟩
    rw [hexec] at h
    cases re with
    | error e => exact absurd h (by simp)
    | ok u =>
      simp only [Except.ok.injEq] at h
      exact ⟨_, h.symm⟩

/-- C1: any error from `step` inside `run` is returned, the register
file is rolled back to the pre-step snapshot, and the fault is
latched; afterwards, any `run` call made while the fault is latched
and no reset is pending returns the same error with the CPU state
completely untouched. -/
theorem c1_fault_latch_rollback {σ : Type} (M : Machine σ) (c : Mos6502 σ) (e : RunError)
    (hr : c.reset_pending = false) (hf : c.fault = none)
    (hn : c.nmi_pending = false)
    (hi : c.reg_file.flag_set .InterruptDisable = true ∨ c.irq_pending = false)
    (hstep : (step M c).1 = .error e) :
    (run M c).1 = .error e ∧
    (run M c).2.reg_file = c.reg_file ∧
    (run M c).2.fault = some e ∧
    (∀ c2 : Mos6502 σ, c2.fault = some e → c2.reset_pending = false →
      run M c2 = (.error e, c2)) := by
  have hq : (!c.reg_file.flag_set .InterruptDisable && c.irq_pending) = false := by
    rcases hi with h | h <;> simp [h]
  have hrun := run_step_phase M c hr hf hn hq
  rcases hs : step M c with ⟨r, c'⟩
  rw [hs] at hrun hstep
  simp only at hstep
  subst hstep
  rw [hrun]
  refine ⟨rfl, rfl, rfl, ?_⟩
  intro c2 h2f h2r
  unfold run handle_reset
  simp only [h2r, h2f, Bool.false_eq_true, if_false, bindR]

/-- C1 witness: fetching `JAM` at `0x0300` faults, rolls the register
file back, latches the fault, and jams subsequent `run` calls. -/
theorem c1_fault_latch_rollback_witness :
    (run testMachine cpuJam).1 = .error (RunError.InvalidInstruction 0x02) ∧
    (run testMachine cpuJam).2.reg_file = cpuJam.reg_file ∧
    run testMachine (run testMachine cpuJam).2 =
      (.error (RunError.InvalidInstruction 0x02), (run testMachine cpuJam).2) := by
  have h := c1_fault_latch_rollback testMachine cpuJam (RunError.InvalidInstruction 0x02)
    rfl rfl rfl (Or.inl (by decide)) (by decide)
  exact ⟨h.1, h.2.1, h.2.2.2 _ h.2.2.1 rfl⟩

/-- `flag_set` only depends on P. -/
theorem flag_set_congr {rf1 rf2 : RegisterFile} (h : rf1.p = rf2.p) (f : Status) :
    rf1.flag_set f = rf2.flag_set f := by
  unfold RegisterFile.flag_set
  rw [h]

/-- Setting a flag makes `flag_set` report it. -/
theorem flag_set_after_set_flag (rf : RegisterFile) (f : Status) :
    (rf.set_flag f).flag_set f = true := by
  unfold RegisterFile.set_flag
  rw [flag_set_after_set_flag_from_cond]
  simp

/-- C3: with I set (and no reset, fault, or NMI) a pending IRQ is
ignored: `run` cannot report `Interrupt` and executes the next
instruction exactly as `step` does.  With I clear and `irq_pending`,
when the three stack pushes (PC high byte, PC low byte, then P with B
cleared and bit 5 set — pushed after I is set) succeed and the vector
word at `0xFFFE`/`0xFFFF` reads as `v`, `run` returns `Interrupt`
with PC = `v`, `irq_pending` cleared, and I set. -/
theorem c3_irq_mask_and_dispatch :
    (∀ (σ : Type) (M : Machine σ) (c : Mos6502 σ),
      c.reset_pending = false → c.fault = none → c.nmi_pending = false →
      c.reg_file.flag_set .InterruptDisable = true →
      ((run M c).1 ≠ .ok RunExit.Interrupt ∧
       ∀ r, (step M c).1 = .ok r → run M c = (.ok r, (step M c).2))) ∧
    (∀ (σ : Type) (M : Machine σ) (c c2 c3 : Mos6502 σ) (v : Nat),
      c.reset_pending = false → c.fault = none → c.nmi_pending = false →
      c.reg_file.flag_set .InterruptDisable = false → c.irq_pending = true →
      stack_push_u16 M { c with reg_file := c.reg_file.set_flag .InterruptDisable }
          ({ c with reg_file := c.reg_file.set_flag .InterruptDisable }.reg_file.pc)
        = (.ok (), c2) →
      stack_push_u8 M c2
          (c2.reg_file.reg .P &&& (Status.Break.mask ^^^ 255) ||| Status.AlwaysSet.mask)
        = (.ok (), c3) →
      (read_u16 M c3 IRQ_BRK_VECTOR).1 = .ok v →
      run M c = (.ok RunExit.Interrupt,
        { c3 with reg_file := c3.reg_file.set_pc v, irq_pending := false }) ∧
      c3.reg_file.flag_set .InterruptDisable = true ∧
      ({ c3 with reg_file := c3.reg_file.set_pc v, irq_pending := false } :
        Mos6502 σ).reg_file.pc = v) := by
  constructor
  · intro σ M c hr hf hn hI
    have hq : (!c.reg_file.flag_set .InterruptDisable && c.irq_pending) = false := by
      rw [hI]
      rfl
    have hrun := run_step_phase M c hr hf hn hq
    rcases hs : step M c with ⟨r, c'⟩
    rw [hs] at hrun
    constructor
    · cases r with
      | error e =>
        rw [hrun]
        simp
      | ok o =>
        rcases step_ok_executed M c o (by rw [hs]) with ⟨i, hi⟩
        rw [hrun, hi]
        simp
    · intro r2 hr2
      simp only at hr2
      subst hr2
      rw [hrun]
  · intro σ M c c2 c3 v hr hf hn hI hq h1 h2 h3
    have hcond : (!c.reg_file.flag_set .InterruptDisable && c.irq_pending) = true := by
      rw [hI, hq]
      rfl
    have hp3 : c3.reg_file.p =
        (c.reg_file.set_flag .InterruptDisable).p := by
      have f2 := stack_push_u8_snd M c2
        (c2.reg_file.reg .P &&& (Status.Break.mask ^^^ 255) ||| Status.AlwaysSet.mask)
      rw [h2] at f2
      simp only at f2
      have f1 := stack_push_u16_snd M
        { c with reg_file := c.reg_file.set_flag .InterruptDisable }
        ({ c with reg_file := c.reg_file.set_flag .InterruptDisable }.reg_file.pc)
      rw [h1] at f1
      simp only at f1
      exact f2.2.2.2.2.1.trans f1.2.2.2.2.1
    refine ⟨?_, ?_, rfl⟩
    · unfold run handle_reset
      simp only [hr, hf, hn, hcond, Bool.false_eq_true, if_false, bindR, if_true]
      simp only [hr, hf, hn] at h1
      rw [h1]
      dsimp only
      rw [h2]
      dsimp only
      rcases h3' : read_u16 M c3 IRQ_BRK_VECTOR with ⟨r3, c4⟩
      have hc4 : c4 = c3 := by
        have := read_u16_snd M c3 IRQ_BRK_VECTOR
        rw [h3'] at this
        exact this
      rw [h3'] at h3
      simp only at h3
      subst h3
      subst hc4
      rfl
    · rw [flag_set_congr hp3, flag_set_after_set_flag]

/-- C9: an error while `run` services a pending NMI or IRQ — a failed
stack push or a failed vector read — is returned without being
latched as a fault and without clearing the pending event flag —
covering, for NMI and for IRQ alike, a failure of the PC push, of the
P push, and of the vector-word read — and
the register mutations already performed (the I flag was set first,
completed pushes decremented S) are not rolled back.  The last
conjunct evaluates a concrete service where the first push lands and
the second hits a read-only stack byte. -/
theorem c9_service_error_no_latch :
    (∀ (σ : Type) (M : Machine σ) (c c2 : Mos6502 σ) (e : RunError),
      c.reset_pending = false → c.fault = none → c.nmi_pending = true →
      stack_push_u16 M { c with reg_file := c.reg_file.set_flag .InterruptDisable }
          ({ c with reg_file := c.reg_file.set_flag .InterruptDisable }.reg_file.pc)
        = (.error e, c2) →
      run M c = (.error e, c2) ∧ c2.fault = none ∧ c2.nmi_pending = true ∧
      c2.reg_file.flag_set .InterruptDisable = true) ∧
    (∀ (σ : Type) (M : Machine σ) (c c2 c3 : Mos6502 σ) (e : RunError),
      c.reset_pending = false → c.fault = none → c.nmi_pending = true →
      stack_push_u16 M { c with reg_file := c.reg_file.set_flag .InterruptDisable }
          ({ c with reg_file := c.reg_file.set_flag .InterruptDisable }.reg_file.pc)
        = (.ok (), c2) →
      stack_push_u8 M c2
          (c2.reg_file.reg .P &&& (Status.Break.mask ^^^ 255) ||| Status.AlwaysSet.mask)
        = (.error e, c3) →
      run M c = (.error e, c3) ∧ c3.fault = none ∧ c3.nmi_pending = true ∧
      c3.reg_file.flag_set .InterruptDisable = true) ∧
    (∀ (σ : Type) (M : Machine σ) (c c2 c3 : Mos6502 σ) (e : RunError),
      c.reset_pending = false → c.fault = none → c.nmi_pending = true →
      stack_push_u16 M { c with reg_file := c.reg_file.set_flag .InterruptDisable }
          ({ c with reg_file := c.reg_file.set_flag .InterruptDisable }.reg_file.pc)
        = (.ok (), c2) →
      stack_push_u8 M c2
          (c2.reg_file.reg .P &&& (Status.Break.mask ^^^ 255) ||| Status.AlwaysSet.mask)
        = (.ok (), c3) →
      (read_u16 M c3 NMI_VECTOR).1 = .error e →
      run M c = (.error e, c3) ∧ c3.fault = none ∧ c3.nmi_pending = true ∧
      c3.reg_file.flag_set .InterruptDisable = true) ∧
    (∀ (σ : Type) (M : Machine σ) (c c2 : Mos6502 σ) (e : RunError),
      c.reset_pending = false → c.fault = none → c.nmi_pending = false →
      c.reg_file.flag_set .InterruptDisable = false → c.irq_pending = true →
      stack_push_u16 M { c with reg_file := c.reg_file.set_flag .InterruptDisable }
          ({ c with reg_file := c.reg_file.set_flag .InterruptDisable }.reg_file.pc)
        = (.error e, c2) →
      run M c = (.error e, c2) ∧ c2.fault = none ∧ c2.irq_pending = true ∧
      c2.reg_file.flag_set .InterruptDisable = true) ∧
    (∀ (σ : Type) (M : Machine σ) (c c2 c3 : Mos6502 σ) (e : RunError),
      c.reset_pending = false → c.fault = none → c.nmi_pending = false →
      c.reg_file.flag_set .InterruptDisable = false → c.irq_pending = true →
      stack_push_u16 M { c with reg_file := c.reg_file.set_flag .InterruptDisable }
          ({ c with reg_file := c.reg_file.set_flag .InterruptDisable }.reg_file.pc)
        = (.ok (), c2) →
      stack_push_u8 M c2
          (c2.reg_file.reg .P &&& (Status.Break.mask ^^^ 255) ||| Status.AlwaysSet.mask)
        = (.error e, c3) →
      run M c = (.error e, c3) ∧ c3.fault = none ∧ c3.irq_pending = true ∧
      c3.reg_file.flag_set .InterruptDisable = true) ∧
    (∀ (σ : Type) (M : Machine σ) (c c2 c3 : Mos6502 σ) (e : RunError),
      c.reset_pending = false → c.fault = none → c.nmi_pending = false →
      c.reg_file.flag_set .InterruptDisable = false → c.irq_pending = true →
      stack_push_u16 M { c with reg_file := c.reg_file.set_flag .InterruptDisable }
          ({ c with reg_file := c.reg_file.set_flag .InterruptDisable }.reg_file.pc)
        = (.ok (), c2) →
      stack_push_u8 M c2
          (c2.reg_file.reg .P &&& (Status.Break.mask ^^^ 255) ||| Status.AlwaysSet.mask)
        = (.ok (), c3) →
      (read_u16 M c3 IRQ_BRK_VECTOR).1 = .error e →
      run M c = (.error e, c3) ∧ c3.fault = none ∧ c3.irq_pending = true ∧
      c3.reg_file.flag_set .InterruptDisable = true) ∧
    ((run testMachine cpuNmiPartial).1
        = .error (RunError.MemoryAccess (MemoryError.ReadOnlyAddress 0x017F)) ∧
     (run testMachine cpuNmiPartial).2.reg_file.s = 0x7F ∧
     (run testMachine cpuNmiPartial).2.mem.store 0x0180 = 0x02 ∧
     (run testMachine cpuNmiPartial).2.fault = none ∧
     (run testMachine cpuNmiPartial).2.nmi_pending = true ∧
     (run testMachine cpuNmiPartial).2.reg_file.flag_set .InterruptDisable = true) := by
  refine ⟨?_, ?_, ?_, ?_, ?_, ?_, ?_⟩
  · intro σ M c c2 e hr hf hn h1
    have hfields := stack_push_u16_snd M
      { c with reg_file := c.reg_file.set_flag .InterruptDisable }
      ({ c with reg_file := c.reg_file.set_flag .InterruptDisable }.reg_file.pc)
    rw [h1] at hfields
    simp only at hfields
    refine ⟨?_, hfields.1.trans hf, hfields.2.1.trans hn, ?_⟩
    · unfold run handle_reset
      simp only [hr, hf, hn, Bool.false_eq_true, if_false, if_true, bindR]
      simp only [hr, hf, hn] at h1
      rw [h1]
    · rw [flag_set_congr hfields.2.2.2.2.1, flag_set_after_set_flag]
  · intro σ M c c2 c3 e hr hf hn h1 h2
    have hfields := stack_push_u16_snd M
      { c with reg_file := c.reg_file.set_flag .InterruptDisable }
      ({ c with reg_file := c.reg_file.set_flag .InterruptDisable }.reg_file.pc)
    rw [h1] at hfields
    simp only at hfields
    have hfields2 := stack_push_u8_snd M c2
      (c2.reg_file.reg .P &&& (Status.Break.mask ^^^ 255) ||| Status.AlwaysSet.mask)
    rw [h2] at hfields2
    simp only at hfields2
    refine ⟨?_, (hfields2.1.trans hfields.1).trans hf,
      (hfields2.2.1.trans hfields.2.1).trans hn, ?_⟩
    · unfold run handle_reset
      simp only [hr, hf, hn, Bool.false_eq_true, if_false, if_true, bindR]
      simp only [hr, hf, hn] at h1
      rw [h1]
      dsimp only
      rw [h2]
    · rw [flag_set_congr (hfields2.2.2.2.2.1.trans hfields.2.2.2.2.1),
        flag_set_after_set_flag]
  · intro σ M c c2 c3 e hr hf hn h1 h2 h3
    have hfields := stack_push_u16_snd M
      { c with reg_file := c.reg_file.set_flag .InterruptDisable }
      ({ c with reg_file := c.reg_file.set_flag .InterruptDisable }.reg_file.pc)
    rw [h1] at hfields
    simp only at hfields
    have hfields2 := stack_push_u8_snd M c2
      (c2.reg_file.reg .P &&& (Status.Break.mask ^^^ 255) ||| Status.AlwaysSet.mask)
    rw [h2] at hfields2
    simp only at hfields2
    refine ⟨?_, (hfields2.1.trans hfields.1).trans hf,
      (hfields2.2.1.trans hfields.2.1).trans hn, ?_⟩
    · unfold run handle_reset
      simp only [hr, hf, hn, Bool.false_eq_true, if_false, if_true, bindR]
      simp only [hr, hf, hn] at h1
      rw [h1]
      dsimp only
      rw [h2]
      dsimp only
      rcases h3' : read_u16 M c3 NMI_VECTOR with ⟨r3, c4⟩
      have hc4 : c4 = c3 := by
        have := read_u16_snd M c3 NMI_VECTOR
        rw [h3'] at this
        exact this
      rw [h3'] at h3
      simp only at h3
      subst h3
      subst hc4
      rfl
    · rw [flag_set_congr (hfields2.2.2.2.2.1.trans hfields.2.2.2.2.1),
        flag_set_after_set_flag]
  · intro σ M c c2 e hr hf hn hI hq h1
    have hcond : (!c.reg_file.flag_set .InterruptDisable && c.irq_pending) = true := by
      rw [hI, hq]
      rfl
    have hfields := stack_push_u16_snd M
      { c with reg_file := c.reg_file.set_flag .InterruptDisable }
      ({ c with reg_file := c.reg_file.set_flag .InterruptDisable }.reg_file.pc)
    rw [h1] at hfields
    simp only at hfields
    refine ⟨?_, hfields.1.trans hf, hfields.2.2.1.trans hq, ?_⟩
    · unfold run handle_reset
      simp only [hr, hf, hn, hcond, Bool.false_eq_true, if_false, if_true, bindR]
      simp only [hr, hf, hn] at h1
      rw [h1]
    · rw [flag_set_congr hfields.2.2.2.2.1, flag_set_after_set_flag]
  · intro σ M c c2 c3 e hr hf hn hI hq h1 h2
    have hcond : (!c.reg_file.flag_set .InterruptDisable && c.irq_pending) = true := by
      rw [hI, hq]
      rfl
    have hfields := stack_push_u16_snd M
      { c with reg_file := c.reg_file.set_flag .InterruptDisable }
      ({ c with reg_file := c.reg_file.set_flag .InterruptDisable }.reg_file.pc)
    rw [h1] at hfields
    simp only at hfields
    have hfields2 := stack_push_u8_snd M c2
      (c2.reg_file.reg .P &&& (Status.Break.mask ^^^ 255) ||| Status.AlwaysSet.mask)
    rw [h2] at hfields2
    simp only at hfields2
    refine ⟨?_, (hfields2.1.trans hfields.1).trans hf,
      (hfields2.2.2.1.trans hfields.2.2.1).trans hq, ?_⟩
    · unfold run handle_reset
      simp only [hr, hf, hn, hcond, Bool.false_eq_true, if_false, if_true, bindR]
      simp only [hr, hf, hn] at h1
      rw [h1]
      dsimp only
      rw [h2]
    · rw [flag_set_congr (hfields2.2.2.2.2.1.trans hfields.2.2.2.2.1),
        flag_set_after_set_flag]
  · intro σ M c c2 c3 e hr hf hn hI hq h1 h2 h3
    have hcond : (!c.reg_file.flag_set .InterruptDisable && c.irq_pending) = true := by
      rw [hI, hq]
      rfl
    have hfields := stack_push_u16_snd M
      { c with reg_file := c.reg_file.set_flag .InterruptDisable }
      ({ c with reg_file := c.reg_file.set_flag .InterruptDisable }.reg_file.pc)
    rw [h1] at hfields
    simp only at hfields
    have hfields2 := stack_push_u8_snd M c2
      (c2.reg_file.reg .P &&& (Status.Break.mask ^^^ 255) ||| Status.AlwaysSet.mask)
    rw [h2] at hfields2
    simp only at hfields2
    refine ⟨?_, (hfields2.1.trans hfields.1).trans hf,
      (hfields2.2.2.1.trans hfields.2.2.1).trans hq, ?_⟩
    · unfold run handle_reset
      simp only [hr, hf, hn, hcond, Bool.false_eq_true, if_false, if_true, bindR]
      simp only [hr, hf, hn] at h1
      rw [h1]
      dsimp only
      rw [h2]
      dsimp only
      rcases h3' : read_u16 M c3 IRQ_BRK_VECTOR with ⟨r3, c4⟩
      have hc4 : c4 = c3 := by
        have := read_u16_snd M c3 IRQ_BRK_VECTOR
        rw [h3'] at this
        exact this
      rw [h3'] at h3
      simp only at h3
      subst h3
      subst hc4
      rfl
    · rw [flag_set_congr (hfields2.2.2.2.2.1.trans hfields.2.2.2.2.1),
        flag_set_after_set_flag]
  · refine ⟨rfl, rfl, rfl, rfl, rfl, by decide⟩

/-- C3 witness: on a concrete machine with `mem16[0xFFFE] = 0x1234`,
a pending IRQ with I clear dispatches to the vector, and with I set
the CPU executes the `NOP` under PC instead. -/
theorem c3_irq_mask_and_dispatch_witness :
    (run testMachine cpuIrq).1 = .ok RunExit.Interrupt ∧
    (run testMachine cpuIrq).2.reg_file.pc = 0x1234 ∧
    (run testMachine cpuIrqMasked).1 ≠ .ok RunExit.Interrupt ∧
    run testMachine cpuIrqMasked
      = (.ok (RunExit.Executed Insn.NOP), (step testMachine cpuIrqMasked).2) := by
  have hd := c3_irq_mask_and_dispatch.2 TestMem testMachine cpuIrq _ _ 0x1234
    rfl rfl rfl (by decide) rfl rfl rfl rfl
  have hm := c3_irq_mask_and_dispatch.1 TestMem testMachine cpuIrqMasked
    rfl rfl rfl (by decide)
  refine ⟨?_, ?_, hm.1, hm.2 _ rfl⟩
  · rw [hd.1]
  · rw [hd.1]
    rfl

/-- C9 witness: the concrete NMI service of `cpuNmiPartial` fails on
its first (16-bit) push; the error propagates without a fault latch
and with the NMI still pending. -/
theorem c9_service_error_no_latch_witness :
    (run testMachine cpuNmiPartial).1
      = .error (RunError.MemoryAccess (MemoryError.ReadOnlyAddress 0x017F)) ∧
    (run testMachine cpuNmiPartial).2.fault = none ∧
    (run testMachine cpuNmiPartial).2.nmi_pending = true := by
  have h := c9_service_error_no_latch.1 TestMem testMachine cpuNmiPartial _
    (RunError.MemoryAccess (MemoryError.ReadOnlyAddress 0x017F)) rfl rfl rfl rfl
  exact ⟨by rw [h.1], by rw [h.1]; exact h.2.1, by rw [h.1]; exact h.2.2.1⟩

/-- C10: for every `u` in `0..=99`, `bcd_to_u8 (u8_to_bcd u) = u`; for
every `u ≥ 100`, `u8_to_bcd u = 0`; and every byte produced by
`u8_to_bcd` is a valid packed-BCD byte (both nibbles in `0..=9`). -/
theorem c10_bcd_round_trip (u : Nat) :
    (u < 100 → bcd_to_u8 (u8_to_bcd u) = u) ∧
    (100 ≤ u → u8_to_bcd u = 0) ∧
    (u8_to_bcd u) >>> 4 ≤ 9 ∧ (u8_to_bcd u) &&& 0x0f ≤ 9 := by
  have hlo : ∀ v : Fin 100,
      bcd_to_u8 (u8_to_bcd v.val) = v.val ∧
      (u8_to_bcd v.val) >>> 4 ≤ 9 ∧ (u8_to_bcd v.val) &&& 0x0f ≤ 9 := by decide
  by_cases h : u < 100
  · exact ⟨fun _ => (hlo ⟨u, h⟩).1, fun hc => absurd hc (by omega),
      (hlo ⟨u, h⟩).2.1, (hlo ⟨u, h⟩).2.2⟩
  · have h0 : u8_to_bcd u = 0 := by
      unfold u8_to_bcd
      rw [if_neg h]
    refine ⟨fun hc => absurd hc h, fun _ => h0, ?_, ?_⟩ <;> rw [h0] <;> decide

/-- C10 witness: the round trip at 42 and the clamp at 142. -/
theorem c10_bcd_round_trip_witness :
    bcd_to_u8 (u8_to_bcd 42) = 42 ∧ u8_to_bcd 142 = 0 :=
  ⟨(c10_bcd_round_trip 42).1 (by decide), (c10_bcd_round_trip 142).2.1 (by decide)⟩

/-- C4: for every opcode `o` in `0..=255`, if `decode_insn o` is not
`JAM` then `encode_insn (decode_insn o) = o`: `encode_insn` is the
exact right-inverse of `decode_insn` over the valid instructions. -/
theorem c4_decode_encode_round_trip (o : Nat) (ho : o < 256)
    (hv : decode_insn o ≠ Insn.JAM) : encode_insn (decode_insn o) = o := by
  have h : ∀ o : Fin 256, decode_insn o.val ≠ Insn.JAM →
      encode_insn (decode_insn o.val) = o.val := by decide
  exact h ⟨o, ho⟩ hv

/-- C4 witness: the round trip at opcode `0xA9` (`LDA #imm`). -/
theorem c4_decode_encode_round_trip_witness :
    encode_insn (decode_insn 0xA9) = 0xA9 :=
  c4_decode_encode_round_trip 0xA9 (by decide) (by decide)

/-- C6: evaluation of the stack primitives at the inputs where the
code diverges from the claim.  Under `Disallow`, a push performed with
S = 0 succeeds and silently wraps S to 0xFF (the claim requires
`StackOverflow` exactly here), while a push performed with S = 0xFF
performs the write, decrements S to 0xFE, and then reports
`StackOverflow` (which the claim does not allow).  The pull side and
the `Allow` policy behave as the claim states: a pull at S = 0xFF
under `Disallow` is a `StackUnderflow`, and under `Allow` both
directions wrap modulo 256 without error. -/
theorem c6_stack_wraparound_eval :
    (stack_push_u8 testMachine cpuStackS00 0x42).1 = Except.ok () ∧
    (stack_push_u8 testMachine cpuStackS00 0x42).2.reg_file.s = 0xFF ∧
    (stack_push_u8 testMachine cpuStackSFF 0x42).1 = Except.error RunError.StackOverflow ∧
    (stack_push_u8 testMachine cpuStackSFF 0x42).2.reg_file.s = 0xFE ∧
    (stack_pull_u8 testMachine cpuStackSFF).1 = Except.error RunError.StackUnderflow ∧
    (stack_push_u8 testMachine cpuStackS00Allow 0x42).1 = Except.ok () ∧
    (stack_push_u8 testMachine cpuStackS00Allow 0x42).2.reg_file.s = 0xFF ∧
    (stack_push_u8 testMachine cpuStackSFFAllow 0x42).1 = Except.ok () ∧
    (stack_push_u8 testMachine cpuStackSFFAllow 0x42).2.reg_file.s = 0xFE ∧
    (stack_pull_u8 testMachine cpuStackSFFAllow).1 = Except.ok 0 ∧
    (stack_pull_u8 testMachine cpuStackSFFAllow).2.reg_file.s = 0 := by
  decide

/-- C2: when `reset_pending` is set and both vector bytes are
readable, the reset handling at the top of `run` loads PC with the
little-endian word at `0xFFFC`/`0xFFFD`, clears the latched fault,
sets I and status bit 5, clears D, clears `reset_pending`, and leaves
A, X, Y and S untouched. -/
theorem c2_reset_contract {σ : Type} (M : Machine σ) (c : Mos6502 σ) (lo hi : Nat)
    (hr : c.reset_pending = true)
    (hlo : M.read c.mem RESET_VECTOR = .ok lo)
    (hhi : M.read c.mem 0xFFFD = .ok hi)
    (hlo8 : lo < 256) (hhi8 : hi < 256) :
    (handle_reset M c).1 = .ok () ∧
    (handle_reset M c).2.reg_file.pc = lo + 256 * hi ∧
    (handle_reset M c).2.fault = none ∧
    (handle_reset M c).2.reset_pending = false ∧
    (handle_reset M c).2.reg_file.flag_set .InterruptDisable = true ∧
    (handle_reset M c).2.reg_file.flag_set .AlwaysSet = true ∧
    (handle_reset M c).2.reg_file.flag_set .Decimal = false ∧
    (handle_reset M c).2.reg_file.a = c.reg_file.a ∧
    (handle_reset M c).2.reg_file.x = c.reg_file.x ∧
    (handle_reset M c).2.reg_file.y = c.reg_file.y ∧
    (handle_reset M c).2.reg_file.s = c.reg_file.s := by
  have hwrap : wrap16 (RESET_VECTOR + 1) = 0xFFFD := by decide
  simp only [handle_reset, read_u16, hr, if_true, hwrap, hlo, hhi, bindR,
    RegisterFile.set_pc, RegisterFile.reset, RegisterFile.set_flag,
    RegisterFile.set_flag_from_cond, RegisterFile.setReg, RegisterFile.flag_set,
    wrap8, Status.mask, Status.bit]
  refine ⟨by trivial, ?_, by trivial, by trivial, by decide, by decide, by decide,
    by trivial, by trivial, by trivial, by trivial⟩
  rw [Nat.mod_eq_of_lt hlo8, Nat.mod_eq_of_lt hhi8]

/-- C2 witness: the reset contract evaluated on a concrete machine
with `mem16[0xFFFC] = 0x0200`. -/
theorem c2_reset_contract_witness :
    (handle_reset testMachine cpuResetPending).2.reg_file.pc = 0x0200 ∧
    (handle_reset testMachine cpuResetPending).2.reg_file.flag_set .InterruptDisable
      = true := by
  have h := c2_reset_contract testMachine cpuResetPending 0x00 0x02
    (by decide) (by decide) (by decide) (by decide) (by decide)
  exact ⟨h.2.1, h.2.2.2.2.1⟩


/-- C5: in binary mode (D = 0) `adc_core` realizes the unsigned 9-bit
sum `R = A + M + C_in`: A gets the low 8 bits of R, C is set iff R
exceeds 0xFF, V iff `(A ^ R) & (M ^ R) & 0x80 ≠ 0`, N and Z from the
low 8 bits of R; `sbc_core` realizes `R = A − M − (1−C_in)` with C the
inverted borrow-out and V the same formula with M complemented.  The
last conjuncts run Scenario D (`ADC #$50` with D=0, C=0, A=0x50)
through the full machine: A=0xA0, C=0, V=1, N=1, Z=0. -/
theorem c5_adc_sbc_binary (a v cin b : Nat) (ovin : Bool)
    (ha : a < 256) (hv : v < 256) (hcin : cin ≤ 1) (hb : b ≤ 1) :
    adc_core false a v cin ovin =
      ((a + v + cin) % 256,
       decide (255 < a + v + cin),
       decide ((a ^^^ (a + v + cin)) &&& (v ^^^ (a + v + cin)) &&& 128 ≠ 0),
       decide (128 ≤ (a + v + cin) % 256),
       decide ((a + v + cin) % 256 = 0)) ∧
    sbc_core false a v b ovin =
      ((a + 256 - (v + b)) % 256,
       decide (a < v + b),
       decide ((a ^^^ ((a + 256 - (v + b)) % 256)) &&&
         ((v ^^^ 255) ^^^ ((a + 256 - (v + b)) % 256)) &&& 128 ≠ 0),
       decide (128 ≤ (a + 256 - (v + b)) % 256),
       decide ((a + 256 - (v + b)) % 256 = 0)) ∧
    (run testMachine cpuAdcScenD).1 = .ok (RunExit.Executed (Insn.ADC .Immediate)) ∧
    (run testMachine cpuAdcScenD).2.reg_file.a = 0xA0 ∧
    (run testMachine cpuAdcScenD).2.reg_file.flag_set .Carry = false ∧
    (run testMachine cpuAdcScenD).2.reg_file.flag_set .Overflow = true ∧
    (run testMachine cpuAdcScenD).2.reg_file.flag_set .Negative = true ∧
    (run testMachine cpuAdcScenD).2.reg_file.flag_set .Zero = false := by
  refine ⟨?_, ?_, by decide, by decide, by decide, by decide, by decide, by decide⟩
  · have hS : wrap16 (v + a + cin) = a + v + cin := by
      unfold wrap16
      omega
    unfold adc_core
    simp only [↓reduceIte, hS, Prod.mk.injEq]
    refine ⟨?_, ?_, ?_, ?_, ?_⟩
    · unfold wrap8
      rfl
    · exact decide_ff00_lt512 ⟨a + v + cin, by omega⟩
    · trivial
    · exact decide_and128 _
    · simp [and255_eq_mod]
  · have hR16 : wrap16 (wrap16 (a + 65536 - v) + 65536 - b)
        = (a + 65536 - (v + b)) % 65536 := by
      unfold wrap16
      omega
    have hR8 : (a + 65536 - (v + b)) % 65536 % 256 = (a + 256 - (v + b)) % 256 := by
      omega
    unfold sbc_core
    simp only [↓reduceIte, hR16, Prod.mk.injEq]
    have ht7 : ((a + 256 - (v + b)) % 256).testBit 7
        = ((a + 65536 - (v + b)) % 65536).testBit 7 := by
      rw [← hR8]
      exact testBit7_mod _
    refine ⟨?_, ?_, ?_, ?_, ?_⟩
    · unfold wrap8
      omega
    · by_cases hlt : a < v + b
      · have hk : (a + 65536 - (v + b)) % 65536
            = 65280 + ((a + 65536 - (v + b)) % 65536 - 65280) := by
          omega
        have hk2 : (a + 65536 - (v + b)) % 65536 - 65280 < 256 := by
          omega
        rw [hk, ff00_hi ⟨(a + 65536 - (v + b)) % 65536 - 65280, hk2⟩]
        simp [hlt]
      · have hk : (a + 65536 - (v + b)) % 65536 = a - (v + b) := by
          omega
        rw [hk]
        have h0 := ff00_lt256 ⟨a - (v + b), by omega⟩
        simp only at h0
        rw [h0]
        simp [hlt]
    · rw [decide_land_land128, decide_land_land128]
      simp only [Nat.testBit_xor, ht7,
        (by decide : Nat.testBit 65535 7 = true), (by decide : Nat.testBit 255 7 = true)]
    · rw [decide_and128, hR8]
    · simp [and255_eq_mod, hR8]


/-- Invariant transport through `bindR`. -/
theorem bindR_keeps {σ : Type} {α β : Type} (P : Mos6502 σ → Prop)
    (e : Except RunError α × Mos6502 σ)
    (f : α → Mos6502 σ → Except RunError β × Mos6502 σ)
    (he : P e.2) (hf : ∀ a, P ((f a e.2).2)) : P ((bindR e f).2) := by
  rcases e with ⟨r, c1⟩
  cases r with
  | error e0 => exact he
  | ok a => exact hf a

/-- `write_u8` never changes the register file. -/
theorem write_u8_keeps_rf {σ : Type} (M : Machine σ) (c : Mos6502 σ) (a v : Nat) :
    (write_u8 M c a v).2.reg_file = c.reg_file := by
  unfold write_u8
  split <;> rfl

/-- `get_effective_address` only moves PC: P is untouched. -/
theorem gea_keeps_p {σ : Type} (M : Machine σ) (c : Mos6502 σ) (m : AddressMode) :
    (get_effective_address M c m).2.reg_file.p = c.reg_file.p := by
  cases m <;> unfold get_effective_address
  case Immediate => rfl
  case Relative => rfl
  case Indirect =>
    apply bindR_keeps (P := fun s => s.reg_file.p = c.reg_file.p)
    · rw [read_u16_snd]
    · intro a
      rw [read_u16_snd]
      apply bindR_keeps (P := fun s => s.reg_file.p = c.reg_file.p)
      · rw [read_u16_snd]
        rfl
      · intro a2
        rw [read_u16_snd]
        rfl
  case Xindirect =>
    apply bindR_keeps (P := fun s => s.reg_file.p = c.reg_file.p)
    · rw [read_u8_snd]
    · intro a
      rw [read_u8_snd]
      apply bindR_keeps (P := fun s => s.reg_file.p = c.reg_file.p)
      · rw [read_u16_snd]
        rfl
      · intro a2
        rw [read_u16_snd]
        rfl
  case IndirectY =>
    apply bindR_keeps (P := fun s => s.reg_file.p = c.reg_file.p)
    · rw [read_u8_snd]
    · intro a
      rw [read_u8_snd]
      apply bindR_keeps (P := fun s => s.reg_file.p = c.reg_file.p)
      · rw [read_u16_snd]
        rfl
      · intro a2
        rw [read_u16_snd]
        rfl
  case Absolute =>
    apply bindR_keeps (P := fun s => s.reg_file.p = c.reg_file.p)
    · rw [read_u16_snd]
    · intro a
      rw [read_u16_snd]
      rfl
  case AbsoluteX =>
    apply bindR_keeps (P := fun s => s.reg_file.p = c.reg_file.p)
    · rw [read_u16_snd]
    · intro a
      rw [read_u16_snd]
      rfl
  case AbsoluteY =>
    apply bindR_keeps (P := fun s => s.reg_file.p = c.reg_file.p)
    · rw [read_u16_snd]
    · intro a
      rw [read_u16_snd]
      rfl
  case Zeropage =>
    apply bindR_keeps (P := fun s => s.reg_file.p = c.reg_file.p)
    · rw [read_u8_snd]
    · intro a
      rw [read_u8_snd]
      rfl
  case ZeropageX =>
    apply bindR_keeps (P := fun s => s.reg_file.p = c.reg_file.p)
    · rw [read_u8_snd]
    · intro a
      rw [read_u8_snd]
      rfl
  case ZeropageY =>
    apply bindR_keeps (P := fun s => s.reg_file.p = c.reg_file.p)
    · rw [read_u8_snd]
    · intro a
      rw [read_u8_snd]
      rfl

/-- `adjust_pc_by` leaves every flag alone. -/
theorem flag_set_adjust (rf : RegisterFile) (i : Int) (f : Status) :
    (rf.adjust_pc_by i).flag_set f = rf.flag_set f := rfl

/-- `set_pc` leaves every flag alone. -/
theorem flag_set_set_pc (rf : RegisterFile) (pc : Nat) (f : Status) :
    (rf.set_pc pc).flag_set f = rf.flag_set f := rfl

/-- Writing A leaves every flag alone. -/
theorem flag_set_setReg_A (rf : RegisterFile) (v : Nat) (f : Status) :
    (rf.setReg .A v).flag_set f = rf.flag_set f := rfl

/-- Writing X leaves every flag alone. -/
theorem flag_set_setReg_X (rf : RegisterFile) (v : Nat) (f : Status) :
    (rf.setReg .X v).flag_set f = rf.flag_set f := rfl

/-- Writing Y leaves every flag alone. -/
theorem flag_set_setReg_Y (rf : RegisterFile) (v : Nat) (f : Status) :
    (rf.setReg .Y v).flag_set f = rf.flag_set f := rfl

/-- Writing S leaves every flag alone. -/
theorem flag_set_setReg_S (rf : RegisterFile) (v : Nat) (f : Status) :
    (rf.setReg .S v).flag_set f = rf.flag_set f := rfl

/-- `update_flags_nz` only writes N and Z: bit 5 is untouched. -/
theorem b5_update_nz (rf : RegisterFile) (d : Nat) :
    (rf.update_nz d).flag_set .AlwaysSet = rf.flag_set .AlwaysSet := by
  unfold RegisterFile.update_nz
  rw [flag_set_after_set_flag_from_cond, flag_set_after_set_flag_from_cond]
  simp [Status.bit]

/-- Bit 5 through `read_modify_to_reg` for a register other than P. -/
theorem rmtr_b5 {σ : Type} (M : Machine σ) (c : Mos6502 σ) (m : AddressMode)
    (reg : Register) (modify : Nat → Nat) (hreg : reg ≠ Register.P)
    (h : c.reg_file.flag_set .AlwaysSet = true) :
    (read_modify_to_reg M c m reg modify).2.reg_file.flag_set .AlwaysSet = true := by
  unfold read_modify_to_reg
  apply bindR_keeps (P := fun s => s.reg_file.flag_set .AlwaysSet = true)
  · rw [flag_set_congr (gea_keeps_p M c m)]
    exact h
  · intro ea
    apply bindR_keeps (P := fun s => s.reg_file.flag_set .AlwaysSet = true)
    · rw [read_u8_snd, flag_set_congr (gea_keeps_p M c m)]
      exact h
    · intro v
      rw [read_u8_snd]
      show ((((get_effective_address M c m).2.reg_file.setReg reg
        (modify v)).update_nz (modify v)).flag_set .AlwaysSet) = true
      rw [b5_update_nz]
      cases reg
      case P => exact absurd rfl hreg
      case A =>
        rw [flag_set_setReg_A, flag_set_congr (gea_keeps_p M c m)]
        exact h
      case X =>
        rw [flag_set_setReg_X, flag_set_congr (gea_keeps_p M c m)]
        exact h
      case Y =>
        rw [flag_set_setReg_Y, flag_set_congr (gea_keeps_p M c m)]
        exact h
      case S =>
        rw [flag_set_setReg_S, flag_set_congr (gea_keeps_p M c m)]
        exact h

/-- Bit 5 through `mem_to_reg`. -/
theorem mem_to_reg_b5 {σ : Type} (M : Machine σ) (c : Mos6502 σ) (m : AddressMode)
    (reg : Register) (hreg : reg ≠ Register.P)
    (h : c.reg_file.flag_set .AlwaysSet = true) :
    (mem_to_reg M c m reg).2.reg_file.flag_set .AlwaysSet = true :=
  rmtr_b5 M c m reg _ hreg h

/-- Bit 5 through `reg_to_mem`. -/
theorem reg_to_mem_b5 {σ : Type} (M : Machine σ) (c : Mos6502 σ) (reg : Register)
    (m : AddressMode) (h : c.reg_file.flag_set .AlwaysSet = true) :
    (reg_to_mem M c reg m).2.reg_file.flag_set .AlwaysSet = true := by
  unfold reg_to_mem
  apply bindR_keeps (P := fun s => s.reg_file.flag_set .AlwaysSet = true)
  · rw [flag_set_congr (gea_keeps_p M c m)]
    exact h
  · intro ea
    rw [flag_set_congr (congrArg RegisterFile.p
      (write_u8_keeps_rf M (get_effective_address M c m).2 ea _)),
      flag_set_congr (gea_keeps_p M c m)]
    exact h

/-- Bit 5 through `reg_to_reg` when the destination is not P. -/
theorem reg_to_reg_b5 {σ : Type} (c : Mos6502 σ) (src dst : Register)
    (hdst : dst ≠ Register.P) (h : c.reg_file.flag_set .AlwaysSet = true) :
    (reg_to_reg c src dst).reg_file.flag_set .AlwaysSet = true := by
  unfold reg_to_reg
  show (((c.reg_file.setReg dst (c.reg_file.reg src)).update_nz _).flag_set .AlwaysSet) = true
  rw [b5_update_nz]
  cases dst
  case P => exact absurd rfl hdst
  case A =>
    rw [flag_set_setReg_A]
    exact h
  case X =>
    rw [flag_set_setReg_X]
    exact h
  case Y =>
    rw [flag_set_setReg_Y]
    exact h
  case S =>
    rw [flag_set_setReg_S]
    exact h

/-- Bit 5 through `read_modify_write_mem`. -/
theorem rmwm_b5 {σ : Type} (M : Machine σ) (c : Mos6502 σ) (m : AddressMode)
    (modify : Nat → Nat) (h : c.reg_file.flag_set .AlwaysSet = true) :
    (read_modify_write_mem M c m modify).2.reg_file.flag_set .AlwaysSet = true := by
  unfold read_modify_write_mem
  apply bindR_keeps (P := fun s => s.reg_file.flag_set .AlwaysSet = true)
  · rw [flag_set_congr (gea_keeps_p M c m)]
    exact h
  · intro ea
    apply bindR_keeps (P := fun s => s.reg_file.flag_set .AlwaysSet = true)
    · rw [read_u8_snd, flag_set_congr (gea_keeps_p M c m)]
      exact h
    · intro v
      rw [read_u8_snd]
      apply bindR_keeps (P := fun s => s.reg_file.flag_set .AlwaysSet = true)
      · rw [flag_set_congr (congrArg RegisterFile.p
          (write_u8_keeps_rf M (get_effective_address M c m).2 ea _)),
          flag_set_congr (gea_keeps_p M c m)]
        exact h
      · intro u
        show (((write_u8 M (get_effective_address M c m).2 ea
            (modify v)).2.reg_file.update_nz (modify v)).flag_set .AlwaysSet) = true
        rw [b5_update_nz,
          flag_set_congr (congrArg RegisterFile.p
            (write_u8_keeps_rf M (get_effective_address M c m).2 ea _)),
          flag_set_congr (gea_keeps_p M c m)]
        exact h

/-- Bit 5 through `read_modify_write_reg` for a register other than P. -/
theorem rmwr_b5 {σ : Type} (c : Mos6502 σ) (reg : Register) (modify : Nat → Nat)
    (hreg : reg ≠ Register.P) (h : c.reg_file.flag_set .AlwaysSet = true) :
    (read_modify_write_reg c reg modify).reg_file.flag_set .AlwaysSet = true := by
  unfold read_modify_write_reg
  show (((c.reg_file.setReg reg _).update_nz _).flag_set .AlwaysSet) = true
  rw [b5_update_nz]
  cases reg
  case P => exact absurd rfl hreg
  case A =>
    rw [flag_set_setReg_A]
    exact h
  case X =>
    rw [flag_set_setReg_X]
    exact h
  case Y =>
    rw [flag_set_setReg_Y]
    exact h
  case S =>
    rw [flag_set_setReg_S]
    exact h

/-- Bit 5 through `stack_push_u8`. -/
theorem push8_b5 {σ : Type} (M : Machine σ) (c : Mos6502 σ) (v : Nat)
    (h : c.reg_file.flag_set .AlwaysSet = true) :
    (stack_push_u8 M c v).2.reg_file.flag_set .AlwaysSet = true := by
  rw [flag_set_congr (stack_push_u8_snd M c v).2.2.2.2.1]
  exact h

/-- Bit 5 through `stack_push_u16`. -/
theorem push16_b5 {σ : Type} (M : Machine σ) (c : Mos6502 σ) (v : Nat)
    (h : c.reg_file.flag_set .AlwaysSet = true) :
    (stack_push_u16 M c v).2.reg_file.flag_set .AlwaysSet = true := by
  rw [flag_set_congr (stack_push_u16_snd M c v).2.2.2.2.1]
  exact h

/-- Bit 5 through `stack_pull_u8`. -/
theorem pull8_b5 {σ : Type} (M : Machine σ) (c : Mos6502 σ)
    (h : c.reg_file.flag_set .AlwaysSet = true) :
    (stack_pull_u8 M c).2.reg_file.flag_set .AlwaysSet = true := by
  unfold stack_pull_u8
  dsimp only
  split
  · exact h
  · apply bindR_keeps (P := fun s => s.reg_file.flag_set .AlwaysSet = true)
    · rw [read_u8_snd]
      exact h
    · intro v
      rw [read_u8_snd]
      show ((c.reg_file.setReg .S _).flag_set .AlwaysSet) = true
      rw [flag_set_setReg_S]
      exact h

/-- Bit 5 through `stack_pull_u16`. -/
theorem pull16_b5 {σ : Type} (M : Machine σ) (c : Mos6502 σ)
    (h : c.reg_file.flag_set .AlwaysSet = true) :
    (stack_pull_u16 M c).2.reg_file.flag_set .AlwaysSet = true := by
  unfold stack_pull_u16
  apply bindR_keeps (P := fun s => s.reg_file.flag_set .AlwaysSet = true)
  · exact pull8_b5 M c h
  · intro lo
    apply bindR_keeps (P := fun s => s.reg_file.flag_set .AlwaysSet = true)
    · exact pull8_b5 M _ (pull8_b5 M c h)
    · intro hi
      exact pull8_b5 M _ (pull8_b5 M c h)

/-- Bit 5 through `branch`. -/
theorem branch_b5 {σ : Type} (M : Machine σ) (c : Mos6502 σ) (m : AddressMode)
    (cond : Bool) (h : c.reg_file.flag_set .AlwaysSet = true) :
    (branch M c m cond).2.reg_file.flag_set .AlwaysSet = true := by
  unfold branch
  split
  · apply bindR_keeps (P := fun s => s.reg_file.flag_set .AlwaysSet = true)
    · rw [flag_set_congr (gea_keeps_p M c m)]
      exact h
    · intro ea
      apply bindR_keeps (P := fun s => s.reg_file.flag_set .AlwaysSet = true)
      · rw [read_u8_snd, flag_set_congr (gea_keeps_p M c m)]
        exact h
      · intro off
        rw [read_u8_snd]
        show (((get_effective_address M c m).2.reg_file.adjust_pc_by
          (sext8 off)).flag_set .AlwaysSet) = true
        rw [flag_set_adjust, flag_set_congr (gea_keeps_p M c m)]
        exact h
  · show ((c.reg_file.adjust_pc_by 1).flag_set .AlwaysSet) = true
    rw [flag_set_adjust]
    exact h

/-- Bit 5 through `compare_reg_mem`. -/
theorem compare_b5 {σ : Type} (M : Machine σ) (c : Mos6502 σ) (reg : Register)
    (m : AddressMode) (h : c.reg_file.flag_set .AlwaysSet = true) :
    (compare_reg_mem M c reg m).2.reg_file.flag_set .AlwaysSet = true := by
  unfold compare_reg_mem
  apply bindR_keeps (P := fun s => s.reg_file.flag_set .AlwaysSet = true)
  · rw [flag_set_congr (gea_keeps_p M c m)]
    exact h
  · intro ea
    apply bindR_keeps (P := fun s => s.reg_file.flag_set .AlwaysSet = true)
    · rw [read_u8_snd, flag_set_congr (gea_keeps_p M c m)]
      exact h
    · intro v
      rw [read_u8_snd]
      show ((((get_effective_address M c m).2.reg_file.update_nz
        _).set_flag_from_cond .Carry _).flag_set .AlwaysSet) = true
      rw [flag_set_after_set_flag_from_cond]
      simp only [Status.bit, ↓reduceIte]
      rw [b5_update_nz, flag_set_congr (gea_keeps_p M c m)]
      exact h

/-- Bit 5 through `bit_insn`. -/
theorem bit_insn_b5 {σ : Type} (M : Machine σ) (c : Mos6502 σ) (m : AddressMode)
    (h : c.reg_file.flag_set .AlwaysSet = true) :
    (bit_insn M c m).2.reg_file.flag_set .AlwaysSet = true := by
  unfold bit_insn
  apply bindR_keeps (P := fun s => s.reg_file.flag_set .AlwaysSet = true)
  · rw [flag_set_congr (gea_keeps_p M c m)]
    exact h
  · intro ea
    apply bindR_keeps (P := fun s => s.reg_file.flag_set .AlwaysSet = true)
    · rw [read_u8_snd, flag_set_congr (gea_keeps_p M c m)]
      exact h
    · intro v
      rw [read_u8_snd]
      show (((((get_effective_address M c m).2.reg_file.set_flag_from_cond .Zero
        _).set_flag_from_cond .Negative _).set_flag_from_cond .Overflow
        _).flag_set .AlwaysSet) = true
      rw [flag_set_after_set_flag_from_cond, flag_set_after_set_flag_from_cond,
        flag_set_after_set_flag_from_cond]
      simp only [Status.bit, ↓reduceIte]
      rw [flag_set_congr (gea_keeps_p M c m)]
      exact h

/-- Bit 5 through the read-modify-write shape shared by the four
memory shifts/rotates. -/
theorem shiftlike_b5 {σ : Type} (M : Machine σ) (c : Mos6502 σ) (m : AddressMode)
    (vf : Nat → Nat) (cf : Nat → Bool)
    (h : c.reg_file.flag_set .AlwaysSet = true) :
    (bindR (get_effective_address M c m) fun ea c =>
     bindR (read_u8 M c ea) fun v c =>
     bindR (write_u8 M c ea (vf v)) fun _ c =>
     ((.ok (), { c with reg_file :=
       (c.reg_file.update_nz (vf v)).set_flag_from_cond .Carry (cf v) }) :
       Except RunError Unit × Mos6502 σ)).2.reg_file.flag_set .AlwaysSet = true := by
  apply bindR_keeps (P := fun s => s.reg_file.flag_set .AlwaysSet = true)
  · rw [flag_set_congr (gea_keeps_p M c m)]
    exact h
  · intro ea
    apply bindR_keeps (P := fun s => s.reg_file.flag_set .AlwaysSet = true)
    · rw [read_u8_snd, flag_set_congr (gea_keeps_p M c m)]
      exact h
    · intro v
      rw [read_u8_snd]
      apply bindR_keeps (P := fun s => s.reg_file.flag_set .AlwaysSet = true)
      · rw [flag_set_congr (congrArg RegisterFile.p
          (write_u8_keeps_rf M (get_effective_address M c m).2 ea _)),
          flag_set_congr (gea_keeps_p M c m)]
        exact h
      · intro u
        show ((((write_u8 M (get_effective_address M c m).2 ea
          (vf v)).2.reg_file.update_nz (vf v)).set_flag_from_cond .Carry
          (cf v)).flag_set .AlwaysSet) = true
        rw [flag_set_after_set_flag_from_cond]
        simp only [Status.bit, ↓reduceIte]
        rw [b5_update_nz,
          flag_set_congr (congrArg RegisterFile.p
            (write_u8_keeps_rf M (get_effective_address M c m).2 ea _)),
          flag_set_congr (gea_keeps_p M c m)]
        exact h

/-- Bit 5 through the accumulator shift/rotate register update. -/
theorem shiftlike_a_b5 (rf : RegisterFile) (value : Nat) (carry : Bool)
    (h : rf.flag_set .AlwaysSet = true) :
    (((rf.setReg .A value).update_nz value).set_flag_from_cond .Carry
      carry).flag_set .AlwaysSet = true := by
  rw [flag_set_after_set_flag_from_cond]
  simp only [Status.bit, ↓reduceIte]
  rw [b5_update_nz, flag_set_setReg_A]
  exact h

/-- Bit 5 through the final flag writes of `adc`/`sbc`. -/
theorem alu_flags_b5 (rf : RegisterFile) (value : Nat) (co ov ne ze : Bool)
    (h : rf.flag_set .AlwaysSet = true) :
    ((((((rf.setReg .A value).update_nz value).set_flag_from_cond .Carry
      co).set_flag_from_cond .Overflow ov).set_flag_from_cond .Negative
      ne).set_flag_from_cond .Zero ze).flag_set .AlwaysSet = true := by
  rw [flag_set_after_set_flag_from_cond, flag_set_after_set_flag_from_cond,
    flag_set_after_set_flag_from_cond, flag_set_after_set_flag_from_cond]
  simp only [Status.bit, ↓reduceIte]
  rw [b5_update_nz, flag_set_setReg_A]
  exact h

/-- Bit 5 through `adc`. -/
theorem adc_b5 {σ : Type} (M : Machine σ) (c : Mos6502 σ) (m : AddressMode)
    (h : c.reg_file.flag_set .AlwaysSet = true) :
    (adc M c m).2.reg_file.flag_set .AlwaysSet = true := by
  unfold adc
  apply bindR_keeps (P := fun s => s.reg_file.flag_set .AlwaysSet = true)
  · rw [flag_set_congr (gea_keeps_p M c m)]
    exact h
  · intro ea
    apply bindR_keeps (P := fun s => s.reg_file.flag_set .AlwaysSet = true)
    · rw [read_u8_snd, flag_set_congr (gea_keeps_p M c m)]
      exact h
    · intro v
      rw [read_u8_snd]
      rcases adc_core (c.reg_file.flag_set .Decimal) c.reg_file.a v
        (if c.reg_file.flag_set .Carry then 1 else 0) (c.reg_file.flag_set .Overflow)
        with ⟨value, co, ov, ne, ze⟩
      show ((((((((get_effective_address M c m).2.reg_file.setReg .A
        value).update_nz value).set_flag_from_cond .Carry
        co).set_flag_from_cond .Overflow ov).set_flag_from_cond .Negative
        ne).set_flag_from_cond .Zero ze).flag_set .AlwaysSet) = true
      rw [alu_flags_b5 _ _ _ _ _ _ (by
        rw [flag_set_congr (gea_keeps_p M c m)]
        exact h)]

/-- Bit 5 through `sbc`. -/
theorem sbc_b5 {σ : Type} (M : Machine σ) (c : Mos6502 σ) (m : AddressMode)
    (h : c.reg_file.flag_set .AlwaysSet = true) :
    (sbc M c m).2.reg_file.flag_set .AlwaysSet = true := by
  unfold sbc
  apply bindR_keeps (P := fun s => s.reg_file.flag_set .AlwaysSet = true)
  · rw [flag_set_congr (gea_keeps_p M c m)]
    exact h
  · intro ea
    apply bindR_keeps (P := fun s => s.reg_file.flag_set .AlwaysSet = true)
    · rw [read_u8_snd, flag_set_congr (gea_keeps_p M c m)]
      exact h
    · intro v
      rw [read_u8_snd]
      rcases sbc_core (c.reg_file.flag_set .Decimal) c.reg_file.a v
        (if c.reg_file.flag_set .Carry then 0 else 1) (c.reg_file.flag_set .Overflow)
        with ⟨value, bo, ov, ne, ze⟩
      show (((((((get_effective_address M c m).2.reg_file.setReg .A
        value).update_nz value).set_flag_from_cond .Carry
        (!bo)).set_flag_from_cond .Overflow ov).set_flag_from_cond .Negative
        ne).set_flag_from_cond .Zero ze).flag_set .AlwaysSet = true
      rw [alu_flags_b5 _ _ _ _ _ _ (by
        rw [flag_set_congr (gea_keeps_p M c m)]
        exact h)]

/-- Bit 5 through a single flag set/clear for a flag other than
`AlwaysSet`. -/
theorem sffc_b5 (rf : RegisterFile) (f : Status) (cond : Bool)
    (hf : f.bit ≠ 5) (h : rf.flag_set .AlwaysSet = true) :
    (rf.set_flag_from_cond f cond).flag_set .AlwaysSet = true := by
  rw [flag_set_after_set_flag_from_cond]
  split
  · next hc =>
      exact absurd (by simpa [Status.bit] using hc) hf
  · exact h

/-- Bit 5 is preserved by the dispatch of every instruction, on
success and on error alike (PLP and RTI force it on). -/
theorem exec_insn_b5 {σ : Type} (M : Machine σ) (c : Mos6502 σ) (insn : Insn)
    (h : c.reg_file.flag_set .AlwaysSet = true) :
    (exec_insn M c insn).2.reg_file.flag_set .AlwaysSet = true := by
  cases insn
  case BRK =>
    dsimp only [exec_insn]
    apply bindR_keeps (P := fun s => s.reg_file.flag_set .AlwaysSet = true)
    · exact push16_b5 M _ _ h
    · intro u
      apply bindR_keeps (P := fun s => s.reg_file.flag_set .AlwaysSet = true)
      · exact push8_b5 M _ _ (push16_b5 M _ _ h)
      · intro u2
        apply bindR_keeps (P := fun s => s.reg_file.flag_set .AlwaysSet = true)
        · rw [read_u16_snd]
          exact sffc_b5 _ _ _ (by decide) (push8_b5 M _ _ (push16_b5 M _ _ h))
        · intro pc
          rw [read_u16_snd]
          exact sffc_b5 _ _ _ (by decide) (push8_b5 M _ _ (push16_b5 M _ _ h))
  case BCC m => exact branch_b5 M c m _ h
  case BCS m => exact branch_b5 M c m _ h
  case BNE m => exact branch_b5 M c m _ h
  case BEQ m => exact branch_b5 M c m _ h
  case BVC m => exact branch_b5 M c m _ h
  case BVS m => exact branch_b5 M c m _ h
  case BPL m => exact branch_b5 M c m _ h
  case BMI m => exact branch_b5 M c m _ h
  case BIT m => exact bit_insn_b5 M c m h
  case CLC => exact sffc_b5 _ _ _ (by decide) h
  case CLD => exact sffc_b5 _ _ _ (by decide) h
  case CLI => exact sffc_b5 _ _ _ (by decide) h
  case CLV => exact sffc_b5 _ _ _ (by decide) h
  case SEC => exact sffc_b5 _ _ _ (by decide) h
  case SED => exact sffc_b5 _ _ _ (by decide) h
  case SEI => exact sffc_b5 _ _ _ (by decide) h
  case CPX m => exact compare_b5 M c .X m h
  case CPY m => exact compare_b5 M c .Y m h
  case CMP m => exact compare_b5 M c .A m h
  case DEY => exact rmwr_b5 c .Y _ (by decide) h
  case INX => exact rmwr_b5 c .X _ (by decide) h
  case INY => exact rmwr_b5 c .Y _ (by decide) h
  case DEX => exact rmwr_b5 c .X _ (by decide) h
  case JMP m =>
    dsimp only [exec_insn]
    apply bindR_keeps (P := fun s => s.reg_file.flag_set .AlwaysSet = true)
    · rw [flag_set_congr (gea_keeps_p M c m)]
      exact h
    · intro ea
      rw [flag_set_set_pc, flag_set_congr (gea_keeps_p M c m)]
      exact h
  case JSR m =>
    dsimp only [exec_insn]
    apply bindR_keeps (P := fun s => s.reg_file.flag_set .AlwaysSet = true)
    · rw [flag_set_congr (gea_keeps_p M c m)]
      exact h
    · intro ea
      apply bindR_keeps (P := fun s => s.reg_file.flag_set .AlwaysSet = true)
      · exact push16_b5 M _ _ (by
          rw [flag_set_congr (gea_keeps_p M c m)]
          exact h)
      · intro u
        rw [flag_set_set_pc]
        exact push16_b5 M _ _ (by
          rw [flag_set_congr (gea_keeps_p M c m)]
          exact h)
  case LDY m => exact mem_to_reg_b5 M c m .Y (by decide) h
  case LDA m => exact mem_to_reg_b5 M c m .A (by decide) h
  case LDX m => exact mem_to_reg_b5 M c m .X (by decide) h
  case PHA => exact push8_b5 M c _ h
  case PHP => exact push8_b5 M c _ h
  case PLA =>
    dsimp only [exec_insn]
    apply bindR_keeps (P := fun s => s.reg_file.flag_set .AlwaysSet = true)
    · exact pull8_b5 M c h
    · intro v
      rw [b5_update_nz, flag_set_setReg_A]
      exact pull8_b5 M c h
  case PLP =>
    dsimp only [exec_insn]
    apply bindR_keeps (P := fun s => s.reg_file.flag_set .AlwaysSet = true)
    · exact pull8_b5 M c h
    · intro v
      exact flag_set_after_set_flag _ _
  case RTI =>
    dsimp only [exec_insn]
    apply bindR_keeps (P := fun s => s.reg_file.flag_set .AlwaysSet = true)
    · exact pull8_b5 M c h
    · intro v
      apply bindR_keeps (P := fun s => s.reg_file.flag_set .AlwaysSet = true)
      · exact pull16_b5 M _ (flag_set_after_set_flag _ _)
      · intro pc
        rw [flag_set_set_pc]
        exact pull16_b5 M _ (flag_set_after_set_flag _ _)
  case RTS =>
    dsimp only [exec_insn]
    apply bindR_keeps (P := fun s => s.reg_file.flag_set .AlwaysSet = true)
    · exact pull16_b5 M c h
    · intro pc
      rw [flag_set_set_pc]
      exact pull16_b5 M c h
  case STY m => exact reg_to_mem_b5 M c .Y m h
  case STA m => exact reg_to_mem_b5 M c .A m h
  case STX m => exact reg_to_mem_b5 M c .X m h
  case TAY => exact reg_to_reg_b5 c .A .Y (by decide) h
  case TYA => exact reg_to_reg_b5 c .Y .A (by decide) h
  case TAX => exact reg_to_reg_b5 c .A .X (by decide) h
  case TSX => exact reg_to_reg_b5 c .S .X (by decide) h
  case TXA => exact reg_to_reg_b5 c .X .A (by decide) h
  case TXS => exact h
  case ADC m => exact adc_b5 M c m h
  case SBC m => exact sbc_b5 M c m h
  case AND m => exact rmtr_b5 M c m .A _ (by decide) h
  case EOR m => exact rmtr_b5 M c m .A _ (by decide) h
  case ORA m => exact rmtr_b5 M c m .A _ (by decide) h
  case ASLA => exact shiftlike_a_b5 c.reg_file _ _ h
  case LSRA => exact shiftlike_a_b5 c.reg_file _ _ h
  case ROLA => exact shiftlike_a_b5 c.reg_file _ _ h
  case RORA => exact shiftlike_a_b5 c.reg_file _ _ h
  case ASL m =>
    exact shiftlike_b5 M c m (fun v => wrap8 (v <<< 1)) (fun v => v >>> 7 != 0) h
  case LSR m =>
    exact shiftlike_b5 M c m (fun v => v >>> 1) (fun v => v &&& 1 != 0) h
  case ROL m =>
    exact shiftlike_b5 M c m
      (fun v => if c.reg_file.flag_set .Carry then rotl8 v ||| 0b00000001
        else rotl8 v &&& 0b11111110) (fun v => v >>> 7 != 0) h
  case ROR m =>
    exact shiftlike_b5 M c m
      (fun v => if c.reg_file.flag_set .Carry then rotr8 v ||| 0b10000000
        else rotr8 v &&& 0b01111111) (fun v => v &&& 1 != 0) h
  case DEC m => exact rmwm_b5 M c m _ h
  case INC m => exact rmwm_b5 M c m _ h
  case NOP => exact h
  case JAM => exact h

/-- Bit 5 is preserved by `step`, on success and on error alike. -/
theorem step_b5 {σ : Type} (M : Machine σ) (c : Mos6502 σ)
    (h : c.reg_file.flag_set .AlwaysSet = true) :
    (step M c).2.reg_file.flag_set .AlwaysSet = true := by
  unfold step
  cases hf : M.read c.mem c.reg_file.pc with
  | error e => exact h
  | ok op =>
    apply bindR_keeps (P := fun s => s.reg_file.flag_set .AlwaysSet = true)
    · exact exec_insn_b5 M _ _ h
    · intro u
      exact exec_insn_b5 M _ _ h

/-- `stack_pull_u8` does not touch P. -/
theorem pull8_p {σ : Type} (M : Machine σ) (c : Mos6502 σ) :
    (stack_pull_u8 M c).2.reg_file.p = c.reg_file.p := by
  unfold stack_pull_u8
  dsimp only
  split
  · rfl
  · apply bindR_keeps (P := fun s => s.reg_file.p = c.reg_file.p)
    · rw [read_u8_snd]
    · intro v
      rw [read_u8_snd]
      rfl

/-- `stack_pull_u16` does not touch P. -/
theorem pull16_p {σ : Type} (M : Machine σ) (c : Mos6502 σ) :
    (stack_pull_u16 M c).2.reg_file.p = c.reg_file.p := by
  unfold stack_pull_u16
  apply bindR_keeps (P := fun s => s.reg_file.p = c.reg_file.p)
  · exact pull8_p M c
  · intro lo
    apply bindR_keeps (P := fun s => s.reg_file.p = c.reg_file.p)
    · exact (pull8_p M _).trans (pull8_p M c)
    · intro hi
      exact (pull8_p M _).trans (pull8_p M c)

/-- After clearing B and forcing bit 5, B reads clear. -/
theorem break_after_forced (rf : RegisterFile) :
    ((rf.clear_flag .Break).set_flag .AlwaysSet).flag_set .Break = false := by
  rw [RegisterFile.set_flag, flag_set_after_set_flag_from_cond]
  simp only [Status.bit, ↓reduceIte]
  rw [RegisterFile.clear_flag, flag_set_after_set_flag_from_cond]
  simp [Status.bit]

/-- C8 (amended): (1) a successful `step` started with status bit 5
set ends with status bit 5 set — every instruction preserves the
invariant; (2)/(3) whenever the execution of `PLP` (resp. `RTI`)
retires, bit 5 of the live P is forced on and the B bit is forced
off, regardless of the byte pulled from the stack. -/
theorem c8_bit5_amended :
    (∀ (σ : Type) (M : Machine σ) (c : Mos6502 σ) (r : RunExit),
      c.reg_file.flag_set .AlwaysSet = true → (step M c).1 = .ok r →
      (step M c).2.reg_file.flag_set .AlwaysSet = true) ∧
    (∀ (σ : Type) (M : Machine σ) (c : Mos6502 σ),
      (exec_insn M c Insn.PLP).1 = .ok () →
      ((exec_insn M c Insn.PLP).2.reg_file.flag_set .AlwaysSet = true ∧
       (exec_insn M c Insn.PLP).2.reg_file.flag_set .Break = false)) ∧
    (∀ (σ : Type) (M : Machine σ) (c : Mos6502 σ),
      (exec_insn M c Insn.RTI).1 = .ok () →
      ((exec_insn M c Insn.RTI).2.reg_file.flag_set .AlwaysSet = true ∧
       (exec_insn M c Insn.RTI).2.reg_file.flag_set .Break = false)) := by
  refine ⟨?_, ?_, ?_⟩
  · intro σ M c r h _
    exact step_b5 M c h
  · intro σ M c hok
    dsimp only [exec_insn] at hok ⊢
    rcases hp : stack_pull_u8 M c with ⟨r1, c2⟩
    rw [hp] at hok
    cases r1 with
    | error e => exact absurd hok (by simp [bindR])
    | ok v =>
      dsimp only [bindR] at hok ⊢
      exact ⟨flag_set_after_set_flag _ _, break_after_forced _⟩
  · intro σ M c hok
    dsimp only [exec_insn] at hok ⊢
    rcases hp : stack_pull_u8 M c with ⟨r1, c2⟩
    rw [hp] at hok
    cases r1 with
    | error e => exact absurd hok (by simp [bindR])
    | ok v =>
      dsimp only [bindR] at hok ⊢
      rcases hq : stack_pull_u16 M
        { c2 with reg_file :=
          ((c2.reg_file.setReg .P v).clear_flag .Break).set_flag .AlwaysSet }
        with ⟨r2, c4⟩
      rw [hq] at hok
      cases r2 with
      | error e => exact absurd hok (by simp [bindR])
      | ok pc =>
        dsimp only [bindR] at hok ⊢
        have hcp : c4.reg_file.p =
            (((c2.reg_file.setReg .P v).clear_flag .Break).set_flag .AlwaysSet).p := by
          have hsnd := congrArg Prod.snd hq
          simp only at hsnd
          rw [← hsnd]
          exact pull16_p M _
        constructor
        · rw [flag_set_set_pc, flag_set_congr hcp]
          exact flag_set_after_set_flag _ _
        · rw [flag_set_set_pc, flag_set_congr hcp]
          exact break_after_forced _

/-- C8 counterexample: from a state whose P has bit 5 clear, a
successful `step` (a `NOP`) ends with `P & 0x20 = 0`: "after any
successful `step`, `P & 0x20 ≠ 0`" is false without the invariant
precondition. -/
theorem c8_bit5_counterexample :
    (step testMachine cpuNopP0).1 = .ok (RunExit.Executed Insn.NOP) ∧
    (step testMachine cpuNopP0).2.reg_file.p &&& 0x20 = 0 := by
  decide

/-- C8 witness: bit 5 survives a concrete `ADC` step, and a concrete
`PLP` pulling `0xFF` ends with bit 5 on and B off. -/
theorem c8_bit5_amended_witness :
    (step testMachine cpuAdcScenD).2.reg_file.flag_set .AlwaysSet = true ∧
    (exec_insn testMachine cpuPlp Insn.PLP).2.reg_file.flag_set .AlwaysSet = true ∧
    (exec_insn testMachine cpuPlp Insn.PLP).2.reg_file.flag_set .Break = false := by
  have h1 := c8_bit5_amended.1 TestMem testMachine cpuAdcScenD
    (RunExit.Executed (Insn.ADC .Immediate)) (by decide) rfl
  have h2 := c8_bit5_amended.2.1 TestMem testMachine cpuPlp rfl
  exact ⟨h1, h2.1, h2.2⟩

/-- Two PC adjustments compose into one. -/
theorem adjust_pc_by_compose (rf : RegisterFile) (i j : Int) :
    (rf.adjust_pc_by i).adjust_pc_by j = rf.adjust_pc_by (i + j) := by
  simp only [RegisterFile.adjust_pc_by]
  congr 1
  have h0 : ((((rf.pc : Int) + i).emod 65536).toNat : Int)
      = ((rf.pc : Int) + i).emod 65536 :=
    Int.toNat_of_nonneg (Int.emod_nonneg _ (by norm_num))
  rw [h0]
  show ((((rf.pc : Int) + i) % 65536 + j) % 65536).toNat
      = (((rf.pc : Int) + (i + j)) % 65536).toNat
  omega

/-- C7 (amended): for a taken branch (all eight branch arms of
`exec_insn` delegate to `branch` with `Relative` mode and the tested
condition), with `c.reg_file.pc` the address of the offset operand
and `b` the byte stored there, the branch retires and the new PC is
`PC-at-operand + 1 + sign_extend(b) (mod 2^16)`: the offset is applied
after the operand fetch has advanced PC past the offset byte, one more
than the spec's `PC-at-operand + sign_extend(b)`. -/
theorem c7_branch_target_amended {σ : Type} (M : Machine σ) (c : Mos6502 σ) (b : Nat)
    (hread : M.read c.mem c.reg_file.pc = .ok b) :
    (branch M c .Relative true).1 = .ok () ∧
    (branch M c .Relative true).2.reg_file.pc =
      (((c.reg_file.pc : Int) + 1 + sext8 (wrap8 b)).emod 65536).toNat := by
  unfold branch
  simp only [↓reduceIte]
  dsimp only [get_effective_address, bindR, read_u8]
  rw [hread]
  dsimp only
  rw [adjust_pc_by_compose]
  refine ⟨rfl, ?_⟩
  simp only [RegisterFile.adjust_pc_by]
  show (((c.reg_file.pc : Int) + (1 + sext8 (wrap8 b))) % 65536).toNat
      = (((c.reg_file.pc : Int) + 1 + sext8 (wrap8 b)) % 65536).toNat
  omega

/-- C7 counterexample: `BNE` with offset `0x00` at `0x0200` (operand at
`0x0201`, Z clear so the branch is taken) retires with PC = `0x0202`,
not the spec's `PC-at-operand + sign_extend(0) = 0x0201`. -/
theorem c7_branch_target_counterexample :
    (step testMachine cpuBneZero).1 = .ok (RunExit.Executed (Insn.BNE .Relative)) ∧
    (step testMachine cpuBneZero).2.reg_file.pc = 0x0202 ∧
    (step testMachine cpuBneZero).2.reg_file.pc ≠
      (((0x0201 : Int) + sext8 (wrap8 0)).emod 65536).toNat := by
  decide

/-- C7 witness: the amended branch-target formula at a concrete taken
branch whose operand byte is `0x00` at `0x0201`. -/
theorem c7_branch_target_amended_witness :
    (branch testMachine
      { cpuBneZero with reg_file := { cpuBneZero.reg_file with pc := 0x0201 } }
      .Relative true).2.reg_file.pc =
      (((0x0201 : Int) + 1 + sext8 (wrap8 0)).emod 65536).toNat := by
  exact (c7_branch_target_amended testMachine
    { cpuBneZero with reg_file := { cpuBneZero.reg_file with pc := 0x0201 } }
    0 (by decide)).2

/-- C5 witness: Scenario D's arithmetic instance of the ADC formula —
`0x50 + 0x50` with carry-in `0` yields accumulator `0xA0`. -/
theorem c5_adc_sbc_binary_witness :
    (0x50 : Nat) < 256 ∧ (adc_core false 0x50 0x50 0 false).1 = 0xA0 := by
  constructor
  · decide
  · rw [(c5_adc_sbc_binary 0x50 0x50 0 0 false (by decide) (by decide)
      (by decide) (by decide)).1]

end Yamos6502
